import Mathlib

/-!
# shapeit4 : genotype header

A shallow embedding of `src/objects/genotype/genotype_header.h`:
the packing macros (`DIP_*`, `HAP_*`, `VAR_*`), the `phase_set` record,
the `genotype` class and its four inline methods
(`pushPS`, `countDiplotypes`, `makeDiplotypes`, `countTransitions`).

Conventions.
* `unsigned long` is 64 bits, `unsigned int` 32 bits, `unsigned char` 8 bits;
  values are natural numbers and every store is reduced modulo `2 ^ w`.
* `int` is an integer in `[-2^31, 2^31)`.
* Loops are structural recursions on an iteration budget and return `none`
  when the budget is exhausted; an access outside an array also returns `none`.
-/

namespace Shapeit4

/-! ## Macros for packing/unpacking diplotypes -/

/-- Macro `#define DIP_GET(dip,idx) (((dip)>>(idx))&1UL)` -/
def DIP_GET (dip idx : Nat) : Nat := (dip >>> idx) &&& 1

/-- Macro `#define DIP_SET(dip,idx) ((dip)|=(1UL<<(idx)))`; the new value of `dip`. -/
def DIP_SET (dip idx : Nat) : Nat := (dip ||| ((1 <<< idx) % 2 ^ 64)) % 2 ^ 64

/-- Macro `#define DIP_HAP0(idx) ((idx)>>3)` -/
def DIP_HAP0 (idx : Nat) : Nat := idx >>> 3

/-- Macro `#define DIP_HAP1(idx) ((idx)&7)` -/
def DIP_HAP1 (idx : Nat) : Nat := idx &&& 7

/-! ## Macros for packing/unpacking haplotypes -/

/-- Macro `#define HAP_GET(hap, idx) (((hap)>>(idx))&1U)` -/
def HAP_GET (hap idx : Nat) : Nat := (hap >>> idx) &&& 1

/-- Macro `#define HAP_SET(hap, idx) ((hap)|=(1U<<(idx)))`; the new value of `hap`. -/
def HAP_SET (hap idx : Nat) : Nat := (hap ||| ((1 <<< idx) % 2 ^ 32)) % 2 ^ 32

/-! ## Macros for packing/unpacking variants

`v` is a byte of `Variants` holding two 4-bit slots, `e` selects the slot. -/

/-- Macro `#define VAR_GET_HOM(e,v) ((((v)>>((e)<<2))&3)==0)` -/
def VAR_GET_HOM (e v : Nat) : Bool := ((v >>> (e <<< 2)) &&& 3) == 0

/-- Macro `#define VAR_GET_MIS(e,v) ((((v)>>((e)<<2))&3)==1)` -/
def VAR_GET_MIS (e v : Nat) : Bool := ((v >>> (e <<< 2)) &&& 3) == 1

/-- Macro `#define VAR_GET_HET(e,v) ((((v)>>((e)<<2))&3)==2)` -/
def VAR_GET_HET (e v : Nat) : Bool := ((v >>> (e <<< 2)) &&& 3) == 2

/-- Macro `#define VAR_GET_SCA(e,v) ((((v)>>((e)<<2))&3)==3)` -/
def VAR_GET_SCA (e v : Nat) : Bool := ((v >>> (e <<< 2)) &&& 3) == 3

/-- Macro `#define VAR_GET_AMB(e,v) ((((v)>>((e)<<2))&3)>1)` -/
def VAR_GET_AMB (e v : Nat) : Bool := decide (((v >>> (e <<< 2)) &&& 3) > 1)

/-- Macro `#define VAR_SET_HOM(e,v) ((e)?((v)&=207):((v)&=252))`; the new byte. -/
def VAR_SET_HOM (e v : Nat) : Nat := if e ≠ 0 then (v &&& 207) % 256 else (v &&& 252) % 256

/-- Macro `#define VAR_SET_MIS(e,v) ((v)|=(1<<((e)<<2)))`; the new byte. -/
def VAR_SET_MIS (e v : Nat) : Nat := (v ||| (1 <<< (e <<< 2))) % 256

/-- Macro `#define VAR_SET_HET(e,v) ((v)|=(2<<((e)<<2)))`; the new byte. -/
def VAR_SET_HET (e v : Nat) : Nat := (v ||| (2 <<< (e <<< 2))) % 256

/-- Macro `#define VAR_SET_SCA(e,v) ((v)|=(3<<((e)<<2)))`; the new byte. -/
def VAR_SET_SCA (e v : Nat) : Nat := (v ||| (3 <<< (e <<< 2))) % 256

/-- Macro `#define VAR_GET_HAP0(e,v) (((v)&(4<<((e)<<2)))!=0)` -/
def VAR_GET_HAP0 (e v : Nat) : Bool := (v &&& (4 <<< (e <<< 2))) != 0

/-- Macro `#define VAR_SET_HAP0(e,v) ((v)|=(4<<((e)<<2)))`; the new byte. -/
def VAR_SET_HAP0 (e v : Nat) : Nat := (v ||| (4 <<< (e <<< 2))) % 256

/-- Macro `#define VAR_CLR_HAP0(e,v) ((e)?((v)&=191):((v)&=251))`; the new byte. -/
def VAR_CLR_HAP0 (e v : Nat) : Nat := if e ≠ 0 then (v &&& 191) % 256 else (v &&& 251) % 256

/-- Macro `#define VAR_GET_HAP1(e,v) (((v)&(8<<((e)<<2)))!=0)` -/
def VAR_GET_HAP1 (e v : Nat) : Bool := (v &&& (8 <<< (e <<< 2))) != 0

/-- Macro `#define VAR_SET_HAP1(e,v) ((v)|=(8<<((e)<<2)))`; the new byte. -/
def VAR_SET_HAP1 (e v : Nat) : Nat := (v ||| (8 <<< (e <<< 2))) % 256

/-- Macro `#define VAR_CLR_HAP1(e,v) ((e)?((v)&=127):((v)&=247))`; the new byte. -/
def VAR_CLR_HAP1 (e v : Nat) : Nat := if e ≠ 0 then (v &&& 127) % 256 else (v &&& 247) % 256

/-- Macro `#define PS_ALLOC_CHUNK 32` -/
def PS_ALLOC_CHUNK : Nat := 32

/-! ## `struct phase_set` -/

/-- The three bit-fields of `struct phase_set`:
`unsigned int ps : 30; unsigned int a0 : 1; unsigned int a1 : 1;`. -/
structure phase_set where
  ps : Nat
  a0 : Nat
  a1 : Nat
deriving DecidableEq, Repr

/-- The constructor `phase_set(unsigned int _ps, unsigned int _a0, unsigned int _a1)`:
each assignment to a bit-field keeps the low bits that fit its width. -/
def phase_set.new (_ps _a0 _a1 : Nat) : phase_set :=
  { ps := _ps % 2 ^ 30, a0 := _a0 % 2, a1 := _a1 % 2 }

/-! ## `std::vector` with its capacity -/

/-- A `std::vector<T>`: its elements and its capacity. -/
structure vector (α : Type) where
  elems : List α
  cap : Nat

/-- Method `v.size()` -/
def vector.size {α : Type} (v : vector α) : Nat := v.elems.length

/-- Method `v.capacity()` -/
def vector.capacity {α : Type} (v : vector α) : Nat := v.cap

/-- Method `v.reserve(n)`: the capacity grows to `n` when it is smaller, the elements stay. -/
def vector.reserve {α : Type} (v : vector α) (n : Nat) : vector α :=
  if v.cap < n then { v with cap := n } else v

/-- Method `v.emplace_back(x)`: appends `x`; when the vector is full the storage is
reallocated first (capacity `size + max size 1`). -/
def vector.emplace_back {α : Type} (v : vector α) (x : α) : vector α :=
  if v.elems.length < v.cap then { v with elems := v.elems ++ [x] }
  else { elems := v.elems ++ [x], cap := v.elems.length + max v.elems.length 1 }

/-! ## `class genotype` -/

/-- The data members of `class genotype`, in declaration order. -/
structure genotype where
  name : String
  index : Nat
  n_segments : Nat
  n_variants : Nat
  n_ambiguous : Nat
  n_missing : Nat
  n_transitions : Nat
  n_stored_transitionProbs : Nat
  n_storage_events : Nat
  double_precision : Bool
  curr_dipcodes : List Nat
  Variants : List Nat
  Ambiguous : List Nat
  Diplotypes : List Nat
  Lengths : List Nat
  ProbMask : List Bool
  ProbStored : List Float
  ProbMissing : List Float
  PhaseSets : vector phase_set
  ProbabilityMask : List Bool

/-- The type invariants of a `genotype` object: `curr_dipcodes` is an array of
64 bytes, `n_segments` is an `unsigned int`, and every element of `Diplotypes`
is an `unsigned long`. -/
def genotype.WellTyped (g : genotype) : Prop :=
  g.curr_dipcodes.length = 64 ∧ g.n_segments < 2 ^ 32 ∧ ∀ m ∈ g.Diplotypes, m < 2 ^ 64

/-- A genotype with every container empty and `curr_dipcodes` zeroed. -/
def genotype.blank : genotype :=
  { name := "", index := 0, n_segments := 0, n_variants := 0, n_ambiguous := 0,
    n_missing := 0, n_transitions := 0, n_stored_transitionProbs := 0,
    n_storage_events := 0, double_precision := false,
    curr_dipcodes := List.replicate 64 0,
    Variants := [], Ambiguous := [], Diplotypes := [], Lengths := [],
    ProbMask := [], ProbStored := [], ProbMissing := [],
    PhaseSets := { elems := [], cap := 0 }, ProbabilityMask := [] }

/-- A genotype of three segments with masks `3`, `7`, `1`. -/
def genotype.three : genotype :=
  { genotype.blank with n_segments := 3, Diplotypes := [3, 7, 1], Lengths := [1, 1, 1] }

/-- Conversion of an `int` argument to `unsigned int`. -/
def int_to_uint (x : Int) : Nat := (x % 2 ^ 32).toNat

/-- The body of `genotype::pushPS(bool _a0, bool _a1, int _ps)` with the value of
the macro `PS_ALLOC_CHUNK` as the parameter `chunk`:
```
if (PhaseSets.size() == PhaseSets.capacity()) PhaseSets.reserve(PhaseSets.capacity() + PS_ALLOC_CHUNK);
PhaseSets.emplace_back(_ps, _a0, _a1);
``` -/
def pushPS_chunk (chunk : Nat) (g : genotype) (_a0 _a1 : Bool) (_ps : Int) : genotype :=
  let reserved : vector phase_set :=
    if g.PhaseSets.size = g.PhaseSets.capacity
    then g.PhaseSets.reserve (g.PhaseSets.capacity + chunk)
    else g.PhaseSets
  { g with PhaseSets :=
      reserved.emplace_back (phase_set.new (int_to_uint _ps) _a0.toNat _a1.toNat) }

/-- Method `genotype::pushPS`. -/
def pushPS (g : genotype) (_a0 _a1 : Bool) (_ps : Int) : genotype :=
  pushPS_chunk PS_ALLOC_CHUNK g _a0 _a1 _ps

/-- The loop of `genotype::countDiplotypes`,
`for (unsigned long dip = _dip; dip; c++) dip &= dip - 1;`, from the state
`(dip, c)`; the result is the final `c`. In the body `dip` is non-zero, so
`dip - 1` does not wrap. -/
def countDiplotypes_loop : Nat → Nat → Nat → Option Nat
  | 0, _, _ => none
  | fuel + 1, dip, c =>
    if dip ≠ 0 then countDiplotypes_loop fuel ((dip &&& (dip - 1)) % 2 ^ 64) ((c + 1) % 2 ^ 32)
    else some c

/-- Method `genotype::countDiplotypes(unsigned long _dip)`. -/
def countDiplotypes (_dip : Nat) : Option Nat := countDiplotypes_loop 65 _dip 0

/-- The state of the loop of `makeDiplotypes`: the counter `i`, the array
`curr_dipcodes`, and the log of the stores done so far, each one as
(index written, value of `d`). -/
structure MakeState where
  i : Nat
  buf : List Nat
  stores : List (Nat × Nat)

/-- The loop of `genotype::makeDiplotypes`,
`for (unsigned int d = 0, i = 0 ; d < 64 ; ++d) if (DIP_GET(_dip, d)) curr_dipcodes[i++] = d;`,
from the loop variable `d` and the state `st`. A store outside the 64 entries
of `curr_dipcodes` gives `none`. -/
def makeDiplotypes_loop (_dip : Nat) : Nat → Nat → MakeState → Option MakeState
  | 0, _, _ => none
  | fuel + 1, d, st =>
    if d < 64 then
      if DIP_GET _dip d ≠ 0 then
        if st.i < 64 then
          makeDiplotypes_loop _dip fuel ((d + 1) % 2 ^ 32)
            { i := (st.i + 1) % 2 ^ 32,
              buf := st.buf.set st.i (d % 256),
              stores := st.stores ++ [(st.i, d)] }
        else none
      else makeDiplotypes_loop _dip fuel ((d + 1) % 2 ^ 32) st
    else some st

/-- The final loop state of `makeDiplotypes(_dip)` run on the array `buf`. -/
def makeDiplotypes_run (_dip : Nat) (buf : List Nat) : Option MakeState :=
  makeDiplotypes_loop _dip 65 0 { i := 0, buf := buf, stores := [] }

/-- Method `genotype::makeDiplotypes(unsigned long _dip)`. -/
def makeDiplotypes (g : genotype) (_dip : Nat) : Option genotype :=
  (makeDiplotypes_run _dip g.curr_dipcodes).map
    (fun st => { g with curr_dipcodes := st.buf })

/-- The loop of `genotype::countTransitions`, from the loop variable `s` and the
locals `prev_dipcount`, `c`:
```
for (unsigned int s = 0 ; s < n_segments ; s++) {
  unsigned int curr_dipcount = countDiplotypes(Diplotypes[s]);
  c+= prev_dipcount * curr_dipcount;
  prev_dipcount = curr_dipcount;
}
```
A read past the end of `Diplotypes` gives `none`. -/
def countTransitions_loop (g : genotype) : Nat → Nat → Nat → Nat → Option Nat
  | 0, _, _, _ => none
  | fuel + 1, s, prev_dipcount, c =>
    if s < g.n_segments then
      match g.Diplotypes[s]? with
      | none => none
      | some m =>
        match countDiplotypes m with
        | none => none
        | some curr_dipcount =>
          countTransitions_loop g fuel ((s + 1) % 2 ^ 32) curr_dipcount
            ((c + (prev_dipcount * curr_dipcount) % 2 ^ 32) % 2 ^ 32)
    else some c

/-- Method `genotype::countTransitions()`: the returned count and the object after the call. -/
def countTransitions (g : genotype) : Option (Nat × genotype) :=
  (countTransitions_loop g (g.n_segments + 1) 0 1 0).map (fun c => (c, g))

/-! ## Specification-side notions -/

/-- The indices `d < w` whose bit is set in `m`, in increasing order. -/
def setBits (w m : Nat) : List Nat := (List.range w).filter (fun d => DIP_GET m d = 1)

/-- The number of set bits of a 64-bit mask: the number of `d` in `[0,64)` with
`DIP_GET(m,d) = 1`. -/
def popcount (m : Nat) : Nat := (setBits 64 m).length

/-- The transition count as the specification writes it, without reduction:
`0` when `n = 0`, otherwise
`popcount(D[0]) + Σ_{s ∈ [1,n)} popcount(D[s-1]) * popcount(D[s])`. -/
def transitionSum (D : List Nat) (n : Nat) : Nat :=
  if n = 0 then 0
  else popcount (D.getD 0 0) +
    ∑ s in Finset.Ico 1 n, popcount (D.getD (s - 1) 0) * popcount (D.getD s 0)

/-! ## Bits of a mask -/

theorem DIP_GET_zero (m : Nat) : DIP_GET m 0 = m % 2 := by
  simp [DIP_GET]

theorem DIP_GET_succ (m d : Nat) : DIP_GET m (d + 1) = DIP_GET (m / 2) d := by
  simp [DIP_GET, Nat.shiftRight_succ_inside]

theorem DIP_GET_le_one (m d : Nat) : DIP_GET m d ≤ 1 := by
  have h : DIP_GET m d = (m >>> d) % 2 := by simp [DIP_GET]
  omega

theorem DIP_GET_ne_zero_iff (m d : Nat) : DIP_GET m d ≠ 0 ↔ DIP_GET m d = 1 := by
  have h := DIP_GET_le_one m d
  omega

theorem setBits_succ (w m : Nat) :
    setBits (w + 1) m
      = (if m % 2 = 1 then [0] else []) ++ (setBits w (m / 2)).map (fun d => d + 1) := by
  unfold setBits
  rw [List.range_succ_eq_map, List.filter_cons, List.filter_map]
  have hf : ((fun d => decide (DIP_GET m d = 1)) ∘ Nat.succ)
      = (fun d => decide (DIP_GET (m / 2) d = 1)) := by
    funext d
    simp [DIP_GET_succ]
  rw [hf]
  by_cases h : m % 2 = 1 <;> simp [DIP_GET_zero, h]

theorem setBits_length_succ (w m : Nat) :
    (setBits (w + 1) m).length = m % 2 + (setBits w (m / 2)).length := by
  rw [setBits_succ]
  by_cases h : m % 2 = 1
  · simp [h]; omega
  · have h0 : m % 2 = 0 := by omega
    simp [h0]

theorem setBits_length_le (w m : Nat) : (setBits w m).length ≤ w := by
  unfold setBits
  calc ((List.range w).filter _).length ≤ (List.range w).length := List.length_filter_le _ _
    _ = w := List.length_range w

theorem popcount_le (m : Nat) : popcount m ≤ 64 := setBits_length_le 64 m

/-- Clearing the lowest set bit removes exactly one element of `setBits`. -/
theorem setBits_length_clear (w : Nat) :
    ∀ m, 0 < m → m < 2 ^ w →
      (setBits w (m &&& (m - 1))).length + 1 = (setBits w m).length := by
  induction w with
  | zero => intro m h0 h1; simp at h1; omega
  | succ w ih =>
    intro m h0 h1
    rw [setBits_length_succ, setBits_length_succ, Nat.and_div_two]
    by_cases hodd : m % 2 = 1
    · have e1 : (m - 1) / 2 = m / 2 := by omega
      have e2 : (m &&& (m - 1)) % 2 = 0 := by
        have := @Nat.and_mod_two_eq_one m (m - 1)
        omega
      rw [e1, e2, Nat.and_self, hodd]
      omega
    · have hev : m % 2 = 0 := by omega
      have e1 : (m - 1) / 2 = m / 2 - 1 := by omega
      have e2 : (m &&& (m - 1)) % 2 = 0 := by
        have := @Nat.and_mod_two_eq_one m (m - 1)
        omega
      have hpos : 0 < m / 2 := by omega
      have hlt : m / 2 < 2 ^ w := by
        have : 2 ^ (w + 1) = 2 * 2 ^ w := by ring
        omega
      have := ih (m / 2) hpos hlt
      rw [e1, e2, hev]
      omega

theorem popcount_clear (m : Nat) (h0 : 0 < m) (h1 : m < 2 ^ 64) :
    popcount (m &&& (m - 1)) + 1 = popcount m :=
  setBits_length_clear 64 m h0 h1

theorem popcount_zero : popcount 0 = 0 := by decide

/-- With enough budget the loop of `countDiplotypes` adds the number of set
bits of `dip` to the counter. -/
theorem countDiplotypes_loop_eq :
    ∀ (fuel dip c : Nat), dip < 2 ^ 64 → popcount dip < fuel → c + popcount dip < 2 ^ 32 →
      countDiplotypes_loop fuel dip c = some (c + popcount dip) := by
  intro fuel
  induction fuel with
  | zero => intro dip c _ h; omega
  | succ fuel ih =>
    intro dip c hd hf hc
    unfold countDiplotypes_loop
    by_cases h0 : dip = 0
    · subst h0
      simp [popcount_zero]
    · have hpos : 0 < dip := Nat.pos_of_ne_zero h0
      have hle : dip &&& (dip - 1) ≤ dip - 1 := Nat.and_le_right
      have hlt : dip &&& (dip - 1) < 2 ^ 64 := by omega
      have hclr := popcount_clear dip hpos hd
      rw [if_pos h0, Nat.mod_eq_of_lt hlt, Nat.mod_eq_of_lt (by omega : c + 1 < 2 ^ 32)]
      rw [ih (dip &&& (dip - 1)) (c + 1) hlt (by omega) (by omega)]
      congr 1
      omega

theorem countDiplotypes_eq (m : Nat) (h : m < 2 ^ 64) : countDiplotypes m = some (popcount m) := by
  have hp := popcount_le m
  have := countDiplotypes_loop_eq 65 m 0 h (by omega) (by omega)
  simpa [countDiplotypes] using this

/-! ## The loop of `makeDiplotypes` -/

theorem setBits_eq_range' (m : Nat) :
    setBits 64 m = (List.range' 0 64).filter (fun d => DIP_GET m d = 1) := by
  unfold setBits
  rw [List.range_eq_range']

theorem write_step (buf : List Nat) (i x : Nat) (l : List Nat) (hi : i < buf.length) :
    (buf.set i x).take (i + 1) ++ l ++ (buf.set i x).drop (i + 1 + l.length)
      = buf.take i ++ (x :: l) ++ buf.drop (i + (l.length + 1)) := by
  have h1 : (buf.set i x).take (i + 1) = buf.take i ++ [x] := by
    rw [List.set_eq_take_append_cons_drop, if_pos hi]
    have e : buf.take i ++ x :: buf.drop (i + 1) = (buf.take i ++ [x]) ++ buf.drop (i + 1) := by
      simp
    rw [e]
    apply List.take_left'
    simp
    omega
  have h2 : (buf.set i x).drop (i + 1 + l.length) = buf.drop (i + (l.length + 1)) := by
    rw [List.drop_set_of_lt x buf (by omega)]
    congr 1
    omega
  rw [h1, h2]
  simp

/-- The loop of `makeDiplotypes`, started at `d` with `k = 64 - d` iterations
left and `i ≤ d`, ends; it writes the set bits of `[d, 64)` from position `i`
on and leaves the rest of the array as it was. -/
theorem makeDiplotypes_loop_eq (m : Nat) :
    ∀ (fuel k d : Nat) (st : MakeState), d + k = 64 → k < fuel → st.i ≤ d →
      st.buf.length = 64 →
      makeDiplotypes_loop m fuel d st
        = some
          { i := st.i + ((List.range' d k).filter (fun x => DIP_GET m x = 1)).length,
            buf := st.buf.take st.i ++ (List.range' d k).filter (fun x => DIP_GET m x = 1)
              ++ st.buf.drop
                (st.i + ((List.range' d k).filter (fun x => DIP_GET m x = 1)).length),
            stores := st.stores ++
              (List.range' st.i
                ((List.range' d k).filter (fun x => DIP_GET m x = 1)).length).zip
                ((List.range' d k).filter (fun x => DIP_GET m x = 1)) } := by
  intro fuel
  induction fuel with
  | zero => intro k d st _ h; omega
  | succ fuel ih =>
    intro k d st hdk hf hi hlen
    unfold makeDiplotypes_loop
    cases k with
    | zero =>
      have hd : ¬ d < 64 := by omega
      rw [if_neg hd]
      simp
    | succ k =>
      have hd : d < 64 := by omega
      have hd1 : (d + 1) % 2 ^ 32 = d + 1 := Nat.mod_eq_of_lt (by omega)
      rw [if_pos hd, hd1, List.range'_succ, List.filter_cons]
      by_cases hb : DIP_GET m d = 1
      · have hb0 : DIP_GET m d ≠ 0 := by omega
        have hi64 : st.i < 64 := by omega
        have hi1 : (st.i + 1) % 2 ^ 32 = st.i + 1 := Nat.mod_eq_of_lt (by omega)
        have hdm : d % 256 = d := Nat.mod_eq_of_lt (by omega)
        rw [if_pos hb0, if_pos hi64, hi1, hdm]
        rw [ih k (d + 1) _ (by omega) (by omega) (by simp; omega) (by simp [hlen])]
        simp only [hb, decide_True, if_true, List.length_cons]
        have hw := write_step st.buf st.i d
          ((List.range' (d + 1) k).filter (fun x => DIP_GET m x = 1)) (by omega)
        congr 1
        rw [MakeState.mk.injEq]
        refine ⟨by omega, hw, ?_⟩
        rw [List.range'_succ, List.zip_cons_cons, List.append_assoc]
        rfl
      · have hb0 : ¬ DIP_GET m d ≠ 0 := by
          have := DIP_GET_le_one m d
          omega
        rw [if_neg hb0]
        rw [ih k (d + 1) st (by omega) (by omega) (by omega) hlen]
        simp [hb]

/-- The run of `makeDiplotypes(m)` on a 64-entry array ends with the set bits
of `m` in front and the old entries behind them. -/
theorem makeDiplotypes_run_eq (m : Nat) (buf : List Nat) (hlen : buf.length = 64) :
    makeDiplotypes_run m buf
      = some
        { i := popcount m,
          buf := setBits 64 m ++ buf.drop (popcount m),
          stores := (List.range' 0 (popcount m)).zip (setBits 64 m) } := by
  unfold makeDiplotypes_run
  rw [makeDiplotypes_loop_eq m 65 64 0 _ (by omega) (by omega) (by simp) (by simpa using hlen)]
  simp [popcount, setBits_eq_range']

theorem setBits_pairwise (w m : Nat) : (setBits w m).Pairwise (fun a b => a < b) :=
  (List.pairwise_lt_range w).sublist (List.filter_sublist _)

theorem mem_setBits (w m c : Nat) : c ∈ setBits w m ↔ c < w ∧ DIP_GET m c = 1 := by
  simp [setBits, List.mem_filter]

/-- In a strictly increasing list of naturals the entry at position `j` is at least `j`. -/
theorem le_getElem_of_pairwise_lt :
    ∀ (l : List Nat), l.Pairwise (fun a b => a < b) →
      ∀ (j : Nat) (h : j < l.length), j ≤ l[j] := by
  intro l hl j
  induction j with
  | zero => intro _; omega
  | succ j ih =>
    intro h
    have h1 := ih (by omega)
    have h2 : l[j] < l[j + 1] := (List.pairwise_iff_getElem.mp hl) j (j + 1) (by omega) h (by omega)
    omega

/-- Every store of a run of `makeDiplotypes` is at an index `i ≤ d < 64`. -/
theorem makeDiplotypes_stores_bound (m i d : Nat)
    (h : (i, d) ∈ (List.range' 0 (popcount m)).zip (setBits 64 m)) : i ≤ d ∧ d < 64 := by
  obtain ⟨j, hj, hget⟩ := List.getElem_of_mem h
  simp only [List.getElem_zip, List.getElem_range', Prod.mk.injEq] at hget
  simp only [List.length_zip, List.length_range'] at hj
  have hj2 : j < (setBits 64 m).length := by
    have : popcount m = (setBits 64 m).length := rfl
    omega
  obtain ⟨hi, hd⟩ := hget
  have hmem : d ∈ setBits 64 m := by
    rw [← hd]
    exact List.getElem_mem _
  have hle := le_getElem_of_pairwise_lt _ (setBits_pairwise 64 m) j hj2
  have := (mem_setBits 64 m d).mp hmem
  constructor
  · rw [← hd, ← hi]; omega
  · exact this.1

/-! ## The loop of `countTransitions` -/

theorem popcount_pos (m : Nat) (h0 : m ≠ 0) (h1 : m < 2 ^ 64) : 0 < popcount m := by
  have := popcount_clear m (Nat.pos_of_ne_zero h0) h1
  omega

theorem getElem?_eq_some_getD (D : List Nat) (s : Nat) (h : s < D.length) :
    D[s]? = some (D.getD s 0) := by
  simp [List.getD, List.getElem?_eq_getElem h]

theorem getD_lt_of_forall (D : List Nat) (hD : ∀ m ∈ D, m < 2 ^ 64) (s : Nat) :
    D.getD s 0 < 2 ^ 64 := by
  by_cases h : s < D.length
  · have e : D.getD s 0 = D[s] := by simp [List.getD, List.getElem?_eq_getElem h]
    rw [e]
    exact hD _ (List.getElem_mem h)
  · have e : D.getD s 0 = 0 := by
      simp [List.getD, List.getElem?_eq_none (Nat.le_of_not_lt h)]
    rw [e]
    decide

theorem add_mod_step (c a t : Nat) :
    ((c + a % 2 ^ 32) % 2 ^ 32 + t) % 2 ^ 32 = (c + (a + t)) % 2 ^ 32 := by
  norm_num
  omega

/-- The loop of `countTransitions`, started at segment `s` with `k` segments
left, ends and adds the remaining products to the counter modulo `2^32`. -/
theorem countTransitions_loop_eq (g : genotype)
    (hD : ∀ m ∈ g.Diplotypes, m < 2 ^ 64) (hn : g.n_segments ≤ g.Diplotypes.length)
    (hn32 : g.n_segments < 2 ^ 32) :
    ∀ (fuel k s prev c : Nat), s + k = g.n_segments → k < fuel →
      countTransitions_loop g fuel s prev c
        = some (if k = 0 then c
            else (c + (prev * popcount (g.Diplotypes.getD s 0)
              + ∑ t in Finset.Ico (s + 1) g.n_segments,
                popcount (g.Diplotypes.getD (t - 1) 0) * popcount (g.Diplotypes.getD t 0)))
              % 2 ^ 32) := by
  intro fuel
  induction fuel with
  | zero => intro k s prev c _ h; omega
  | succ fuel ih =>
    intro k s prev c hsk hf
    unfold countTransitions_loop
    cases k with
    | zero =>
      have hs : ¬ s < g.n_segments := by omega
      rw [if_neg hs]
      simp
    | succ k =>
      have hs : s < g.n_segments := by omega
      have hs1 : (s + 1) % 2 ^ 32 = s + 1 := Nat.mod_eq_of_lt (by omega)
      rw [if_pos hs, getElem?_eq_some_getD g.Diplotypes s (by omega)]
      simp only []
      rw [countDiplotypes_eq _ (getD_lt_of_forall g.Diplotypes hD s)]
      simp only []
      rw [hs1, ih k (s + 1) _ _ (by omega) (by omega)]
      rw [if_neg (Nat.succ_ne_zero k)]
      congr 1
      cases k with
      | zero =>
        have he : g.n_segments = s + 1 := by omega
        rw [if_pos rfl, he, Finset.Ico_self, Finset.sum_empty]
        have := add_mod_step c (prev * popcount (g.Diplotypes.getD s 0)) 0
        simp at this
        simp
      | succ k =>
        rw [if_neg (Nat.succ_ne_zero k)]
        rw [Finset.sum_eq_sum_Ico_succ_bot (by omega : s + 1 < g.n_segments)]
        simp only [Nat.add_sub_cancel]
        have := add_mod_step c (prev * popcount (g.Diplotypes.getD s 0))
          (popcount (g.Diplotypes.getD s 0) * popcount (g.Diplotypes.getD (s + 1) 0)
            + ∑ t in Finset.Ico (s + 1 + 1) g.n_segments,
                popcount (g.Diplotypes.getD (t - 1) 0) * popcount (g.Diplotypes.getD t 0))
        exact this

/-- The exact transition sum is what `countTransitions` returns, modulo `2^32`. -/
theorem countTransitions_eq (g : genotype) (hg : g.WellTyped)
    (hn : g.n_segments ≤ g.Diplotypes.length) :
    countTransitions g = some (transitionSum g.Diplotypes g.n_segments % 2 ^ 32, g) := by
  obtain ⟨_, hn32, hD⟩ := hg
  unfold countTransitions
  rw [countTransitions_loop_eq g hD hn hn32 (g.n_segments + 1) g.n_segments 0 1 0
    (by omega) (by omega)]
  unfold transitionSum
  by_cases h0 : g.n_segments = 0
  · simp [h0]
  · simp [h0]

theorem transitionSum_le (D : List Nat) (n : Nat) (hn : 1 ≤ n) :
    transitionSum D n ≤ 64 + 4096 * (n - 1) := by
  unfold transitionSum
  rw [if_neg (by omega)]
  have h1 := popcount_le (D.getD 0 0)
  have h2 : ∑ s in Finset.Ico 1 n, popcount (D.getD (s - 1) 0) * popcount (D.getD s 0)
      ≤ (Finset.Ico 1 n).card • 4096 := by
    apply Finset.sum_le_card_nsmul
    intro s _
    have := Nat.mul_le_mul (popcount_le (D.getD (s - 1) 0)) (popcount_le (D.getD s 0))
    omega
  simp only [Nat.card_Ico, smul_eq_mul] at h2
  omega

theorem transitionSum_ge (D : List Nat) (n : Nat) (hn : 1 ≤ n)
    (hD : ∀ m ∈ D, m < 2 ^ 64) (hlen : n ≤ D.length)
    (hne : ∀ s, s < n → D.getD s 0 ≠ 0) :
    n ≤ transitionSum D n := by
  have _ := hlen
  unfold transitionSum
  rw [if_neg (by omega)]
  have hp : ∀ s, s < n → 1 ≤ popcount (D.getD s 0) := fun s hs =>
    popcount_pos _ (hne s hs) (getD_lt_of_forall D hD s)
  have h1 := hp 0 (by omega)
  have h2 : (Finset.Ico 1 n).card • 1
      ≤ ∑ s in Finset.Ico 1 n, popcount (D.getD (s - 1) 0) * popcount (D.getD s 0) := by
    apply Finset.card_nsmul_le_sum
    intro s hs
    rw [Finset.mem_Ico] at hs
    exact Nat.mul_le_mul (hp (s - 1) (by omega)) (hp s (by omega))
  simp only [Nat.card_Ico, smul_eq_mul] at h2
  omega

/-- The loop of `countTransitions` reads `Diplotypes` only below `n_segments`. -/
theorem countTransitions_loop_congr (g g2 : genotype) (hn : g2.n_segments = g.n_segments)
    (hD : ∀ s, s < g.n_segments → g2.Diplotypes[s]? = g.Diplotypes[s]?) :
    ∀ (fuel s prev c : Nat),
      countTransitions_loop g2 fuel s prev c = countTransitions_loop g fuel s prev c := by
  intro fuel
  induction fuel with
  | zero => intro s prev c; rfl
  | succ fuel ih =>
    intro s prev c
    unfold countTransitions_loop
    rw [hn]
    by_cases hs : s < g.n_segments
    · rw [if_pos hs, if_pos hs, hD s hs]
      cases g.Diplotypes[s]? with
      | none => rfl
      | some m =>
        simp only []
        cases countDiplotypes m with
        | none => rfl
        | some curr => simp only []; exact ih _ _ _
    · rw [if_neg hs, if_neg hs]

theorem getElem?_eq_of_take_eq (D D2 : List Nat) (n : Nat) (h : D2.take n = D.take n) :
    ∀ s, s < n → D2[s]? = D[s]? := by
  intro s hs
  have h1 : (D2.take n)[s]? = D2[s]? := List.getElem?_take_of_lt hs
  have h2 : (D.take n)[s]? = D[s]? := List.getElem?_take_of_lt hs
  rw [← h1, ← h2, h]

/-! ## `pushPS` -/

theorem pushPS_chunk_elems (chunk : Nat) (g : genotype) (a0 a1 : Bool) (ps : Int) :
    (pushPS_chunk chunk g a0 a1 ps).PhaseSets.elems
      = g.PhaseSets.elems ++ [phase_set.new (int_to_uint ps) a0.toNat a1.toNat] := by
  unfold pushPS_chunk vector.emplace_back vector.reserve
  simp only []
  split <;> split <;> (try split) <;> rfl

theorem int_to_uint_mod (x : Int) : ((int_to_uint x % 2 ^ 30 : Nat) : Int) = x % 2 ^ 30 := by
  unfold int_to_uint
  omega

theorem bool_toNat_mod_two (b : Bool) : b.toNat % 2 = b.toNat := by
  cases b <;> rfl

set_option maxRecDepth 100000 in
theorem VAR_slot_decode : ∀ e < 2, ∀ v < 256,
    (v >>> (e <<< 2)) &&& 15
      = ((v >>> (e <<< 2)) &&& 3) + 4 * (VAR_GET_HAP0 e v).toNat
        + 8 * (VAR_GET_HAP1 e v).toNat := by
  decide

set_option maxRecDepth 100000 in
theorem VAR_copy_pairs_card : ∀ e < 2,
    (((Finset.range 256).filter (fun v => VAR_GET_HET e v || VAR_GET_SCA e v)).image
      (fun v => (VAR_GET_HAP0 e v, VAR_GET_HAP1 e v))).card = 4 := by
  decide

/-! ## The variant setters, byte by byte -/

set_option maxRecDepth 100000 in
theorem VAR_setters_other_slot : ∀ e < 2, ∀ v < 256,
    (VAR_SET_HOM e v >>> ((1 - e) <<< 2)) &&& 15 = (v >>> ((1 - e) <<< 2)) &&& 15 ∧
    (VAR_SET_MIS e v >>> ((1 - e) <<< 2)) &&& 15 = (v >>> ((1 - e) <<< 2)) &&& 15 ∧
    (VAR_SET_HET e v >>> ((1 - e) <<< 2)) &&& 15 = (v >>> ((1 - e) <<< 2)) &&& 15 ∧
    (VAR_SET_SCA e v >>> ((1 - e) <<< 2)) &&& 15 = (v >>> ((1 - e) <<< 2)) &&& 15 ∧
    (VAR_SET_HAP0 e v >>> ((1 - e) <<< 2)) &&& 15 = (v >>> ((1 - e) <<< 2)) &&& 15 ∧
    (VAR_CLR_HAP0 e v >>> ((1 - e) <<< 2)) &&& 15 = (v >>> ((1 - e) <<< 2)) &&& 15 ∧
    (VAR_SET_HAP1 e v >>> ((1 - e) <<< 2)) &&& 15 = (v >>> ((1 - e) <<< 2)) &&& 15 ∧
    (VAR_CLR_HAP1 e v >>> ((1 - e) <<< 2)) &&& 15 = (v >>> ((1 - e) <<< 2)) &&& 15 := by
  decide

set_option maxRecDepth 100000 in
theorem VAR_type_setters_keep_hap : ∀ e < 2, ∀ v < 256,
    (VAR_GET_HAP0 e (VAR_SET_HOM e v) = VAR_GET_HAP0 e v ∧
      VAR_GET_HAP1 e (VAR_SET_HOM e v) = VAR_GET_HAP1 e v) ∧
    (VAR_GET_HAP0 e (VAR_SET_MIS e v) = VAR_GET_HAP0 e v ∧
      VAR_GET_HAP1 e (VAR_SET_MIS e v) = VAR_GET_HAP1 e v) ∧
    (VAR_GET_HAP0 e (VAR_SET_HET e v) = VAR_GET_HAP0 e v ∧
      VAR_GET_HAP1 e (VAR_SET_HET e v) = VAR_GET_HAP1 e v) ∧
    (VAR_GET_HAP0 e (VAR_SET_SCA e v) = VAR_GET_HAP0 e v ∧
      VAR_GET_HAP1 e (VAR_SET_SCA e v) = VAR_GET_HAP1 e v) := by
  decide

set_option maxRecDepth 100000 in
theorem VAR_hap_setters_keep_rest : ∀ e < 2, ∀ v < 256,
    ((VAR_SET_HAP0 e v >>> (e <<< 2)) &&& 3 = (v >>> (e <<< 2)) &&& 3 ∧
      VAR_GET_HAP1 e (VAR_SET_HAP0 e v) = VAR_GET_HAP1 e v) ∧
    ((VAR_CLR_HAP0 e v >>> (e <<< 2)) &&& 3 = (v >>> (e <<< 2)) &&& 3 ∧
      VAR_GET_HAP1 e (VAR_CLR_HAP0 e v) = VAR_GET_HAP1 e v) ∧
    ((VAR_SET_HAP1 e v >>> (e <<< 2)) &&& 3 = (v >>> (e <<< 2)) &&& 3 ∧
      VAR_GET_HAP0 e (VAR_SET_HAP1 e v) = VAR_GET_HAP0 e v) ∧
    ((VAR_CLR_HAP1 e v >>> (e <<< 2)) &&& 3 = (v >>> (e <<< 2)) &&& 3 ∧
      VAR_GET_HAP0 e (VAR_CLR_HAP1 e v) = VAR_GET_HAP0 e v) := by
  decide

set_option maxRecDepth 100000 in
theorem VAR_SET_HOM_reads_hom : ∀ e < 2, ∀ v < 256,
    (VAR_GET_HOM e (VAR_SET_HOM e v) = true ∧ VAR_GET_MIS e (VAR_SET_HOM e v) = false ∧
      VAR_GET_HET e (VAR_SET_HOM e v) = false ∧ VAR_GET_SCA e (VAR_SET_HOM e v) = false) ∧
    VAR_SET_HOM e (VAR_SET_HOM e v) = VAR_SET_HOM e v := by
  decide

set_option maxRecDepth 100000 in
theorem VAR_reset_then_set : ∀ e < 2, ∀ v < 256,
    (VAR_GET_MIS e (VAR_SET_MIS e (VAR_SET_HOM e v)) = true ∧
      VAR_GET_HOM e (VAR_SET_MIS e (VAR_SET_HOM e v)) = false ∧
      VAR_GET_HET e (VAR_SET_MIS e (VAR_SET_HOM e v)) = false ∧
      VAR_GET_SCA e (VAR_SET_MIS e (VAR_SET_HOM e v)) = false) ∧
    (VAR_GET_HET e (VAR_SET_HET e (VAR_SET_HOM e v)) = true ∧
      VAR_GET_HOM e (VAR_SET_HET e (VAR_SET_HOM e v)) = false ∧
      VAR_GET_MIS e (VAR_SET_HET e (VAR_SET_HOM e v)) = false ∧
      VAR_GET_SCA e (VAR_SET_HET e (VAR_SET_HOM e v)) = false) ∧
    (VAR_GET_SCA e (VAR_SET_SCA e (VAR_SET_HOM e v)) = true ∧
      VAR_GET_HOM e (VAR_SET_SCA e (VAR_SET_HOM e v)) = false ∧
      VAR_GET_MIS e (VAR_SET_SCA e (VAR_SET_HOM e v)) = false ∧
      VAR_GET_HET e (VAR_SET_SCA e (VAR_SET_HOM e v)) = false) := by
  decide

set_option maxRecDepth 100000 in
theorem VAR_hap_roundtrip : ∀ e < 2, ∀ v < 256,
    (VAR_GET_HAP0 e (VAR_SET_HAP0 e v) = true ∧ VAR_GET_HAP0 e (VAR_CLR_HAP0 e v) = false ∧
      VAR_SET_HAP0 e (VAR_SET_HAP0 e v) = VAR_SET_HAP0 e v ∧
      VAR_CLR_HAP0 e (VAR_CLR_HAP0 e v) = VAR_CLR_HAP0 e v ∧
      VAR_CLR_HAP0 e (VAR_SET_HAP0 e v) = VAR_CLR_HAP0 e v ∧
      VAR_SET_HAP0 e (VAR_CLR_HAP0 e v) = VAR_SET_HAP0 e v) ∧
    (VAR_GET_HAP1 e (VAR_SET_HAP1 e v) = true ∧ VAR_GET_HAP1 e (VAR_CLR_HAP1 e v) = false ∧
      VAR_SET_HAP1 e (VAR_SET_HAP1 e v) = VAR_SET_HAP1 e v ∧
      VAR_CLR_HAP1 e (VAR_CLR_HAP1 e v) = VAR_CLR_HAP1 e v ∧
      VAR_CLR_HAP1 e (VAR_SET_HAP1 e v) = VAR_CLR_HAP1 e v ∧
      VAR_SET_HAP1 e (VAR_CLR_HAP1 e v) = VAR_SET_HAP1 e v) := by
  decide

set_option maxRecDepth 100000 in
theorem VAR_amb_iff : ∀ e < 2, ∀ v < 256,
    (VAR_GET_AMB e v = true ↔ (VAR_GET_HET e v = true ∨ VAR_GET_SCA e v = true)) ∧
    (VAR_GET_HOM e v = true → VAR_GET_AMB e v = false) ∧
    (VAR_GET_MIS e v = true → VAR_GET_AMB e v = false) := by
  decide

set_option maxRecDepth 100000 in
theorem VAR_setters_or : ∀ e < 2, ∀ v < 256,
    (VAR_GET_MIS e v = true →
      VAR_GET_SCA e (VAR_SET_HET e v) = true ∧ VAR_GET_HET e (VAR_SET_HET e v) = false ∧
        VAR_GET_MIS e (VAR_SET_HET e v) = false) ∧
    (VAR_GET_HET e v = true →
      VAR_GET_SCA e (VAR_SET_MIS e v) = true ∧ VAR_GET_HET e (VAR_SET_MIS e v) = false ∧
        VAR_GET_MIS e (VAR_SET_MIS e v) = false) := by
  decide

set_option maxRecDepth 100000 in
theorem VAR_setters_on_scaffold : ∀ e < 2, ∀ v < 256,
    (VAR_GET_SCA e v = true →
      VAR_GET_SCA e (VAR_SET_MIS e v) = true ∧ VAR_GET_SCA e (VAR_SET_HET e v) = true ∧
        VAR_GET_SCA e (VAR_SET_SCA e v) = true) ∧
    VAR_GET_HOM e (VAR_SET_HOM e v) = true ∧
    VAR_GET_SCA e (VAR_SET_SCA e v) = true := by
  decide

/-! ## Setting, intersecting and clearing bits of a mask -/

theorem two_pow_succ_eq (w : Nat) : 2 ^ (w + 1) = 2 * 2 ^ w := by
  rw [Nat.pow_succ, Nat.mul_comm]

theorem DIP_GET_eq_mod (m j : Nat) : DIP_GET m j = m / 2 ^ j % 2 := by
  simp [DIP_GET, Nat.shiftRight_eq_div_pow]

theorem DIP_GET_eq_testBit (m j : Nat) : DIP_GET m j = (m.testBit j).toNat := by
  rw [Nat.toNat_testBit, DIP_GET_eq_mod]

theorem DIP_SET_eq (d idx : Nat) (hd : d < 2 ^ 64) (hidx : idx < 64) :
    DIP_SET d idx = d ||| 2 ^ idx := by
  have h1 : (2 : Nat) ^ idx < 2 ^ 64 := Nat.pow_lt_pow_right (by decide) hidx
  unfold DIP_SET
  rw [Nat.one_shiftLeft, Nat.mod_eq_of_lt h1, Nat.mod_eq_of_lt (Nat.or_lt_two_pow hd h1)]

theorem DIP_GET_or_two_pow (d idx j : Nat) :
    DIP_GET (d ||| 2 ^ idx) j = if j = idx then 1 else DIP_GET d j := by
  rw [DIP_GET_eq_testBit, DIP_GET_eq_testBit, Nat.testBit_or, Nat.testBit_two_pow]
  by_cases h : j = idx
  · subst h
    simp
  · have h2 : ¬ idx = j := fun e => h e.symm
    simp [h, h2]

/-- Setting bit `idx < w` adds one element to `setBits` when the bit was clear
and none when it was set. -/
theorem setBits_length_or_two_pow (w : Nat) :
    ∀ m idx, idx < w →
      (setBits w (m ||| 2 ^ idx)).length = (setBits w m).length + (1 - DIP_GET m idx) := by
  induction w with
  | zero => intro m idx h; omega
  | succ w ih =>
    intro m idx hidx
    rw [setBits_length_succ, setBits_length_succ, Nat.or_div_two]
    cases idx with
    | zero =>
      have e1 : (m ||| 2 ^ 0) % 2 = 1 := Nat.or_mod_two_eq_one.mpr (Or.inr rfl)
      have e2 : (2 : Nat) ^ 0 / 2 = 0 := rfl
      rw [e1, e2, Nat.or_zero, DIP_GET_zero]
      omega
    | succ idx =>
      have e0 : (2 : Nat) ^ (idx + 1) % 2 = 0 := by
        rw [two_pow_succ_eq]
        omega
      have e1 : (m ||| 2 ^ (idx + 1)) % 2 = m % 2 := by
        have := @Nat.or_mod_two_eq_one m (2 ^ (idx + 1))
        omega
      have e2 : (2 : Nat) ^ (idx + 1) / 2 = 2 ^ idx := by
        rw [two_pow_succ_eq]
        omega
      rw [e1, e2, ih (m / 2) idx (by omega), DIP_GET_succ]
      omega

theorem popcount_or_two_pow (m idx : Nat) (hidx : idx < 64) :
    popcount (m ||| 2 ^ idx) = popcount m + (1 - DIP_GET m idx) :=
  setBits_length_or_two_pow 64 m idx hidx

theorem or_two_pow_eq_self (d idx : Nat) (h : DIP_GET d idx = 1) : d ||| 2 ^ idx = d := by
  apply Nat.eq_of_testBit_eq
  intro j
  have h1 := DIP_GET_or_two_pow d idx j
  rw [DIP_GET_eq_testBit, DIP_GET_eq_testBit] at h1
  rw [DIP_GET_eq_testBit] at h
  by_cases hj : j = idx
  · subst hj
    rw [if_pos rfl] at h1
    cases hb : d.testBit j
    · rw [hb] at h; simp at h
    · rw [Nat.testBit_or, hb]; rfl
  · rw [if_neg hj] at h1
    cases h2 : (d ||| 2 ^ idx).testBit j <;> cases h3 : d.testBit j <;>
      simp [h2, h3] at h1 ⊢

/-- Intersecting a mask does not add elements to `setBits`. -/
theorem setBits_length_and_le (w : Nat) :
    ∀ a b, (setBits w (a &&& b)).length ≤ (setBits w a).length := by
  induction w with
  | zero => intro a b; simp [setBits]
  | succ w ih =>
    intro a b
    rw [setBits_length_succ, setBits_length_succ, Nat.and_div_two]
    have h1 := ih (a / 2) (b / 2)
    have h2 := @Nat.and_mod_two_eq_one a b
    omega

/-- The count is kept by an intersection exactly when the mask is kept. -/
theorem setBits_length_and_eq_iff (w : Nat) :
    ∀ a b, a < 2 ^ w →
      ((setBits w (a &&& b)).length = (setBits w a).length ↔ a &&& b = a) := by
  induction w with
  | zero =>
    intro a b ha
    have h0 : a = 0 := by simp at ha; omega
    subst h0
    simp
  | succ w ih =>
    intro a b ha
    constructor
    · intro h
      rw [setBits_length_succ, setBits_length_succ, Nat.and_div_two] at h
      have h1 := setBits_length_and_le w (a / 2) (b / 2)
      have h2 := @Nat.and_mod_two_eq_one a b
      have hlt : a / 2 < 2 ^ w := by
        rw [two_pow_succ_eq] at ha
        omega
      have h3 : a / 2 &&& b / 2 = a / 2 := (ih (a / 2) (b / 2) hlt).mp (by omega)
      have h4 : (a &&& b) % 2 = a % 2 := by omega
      have h5 : (a &&& b) / 2 = a / 2 := by rw [Nat.and_div_two, h3]
      omega
    · intro h
      rw [h]

theorem popcount_and_le_left (a b : Nat) : popcount (a &&& b) ≤ popcount a :=
  setBits_length_and_le 64 a b

theorem popcount_and_le_right (a b : Nat) : popcount (a &&& b) ≤ popcount b := by
  rw [Nat.and_comm]
  exact setBits_length_and_le 64 b a

theorem and_lt_two_pow_64 (a b : Nat) (ha : a < 2 ^ 64) : a &&& b < 2 ^ 64 :=
  Nat.lt_of_le_of_lt Nat.and_le_left ha

/-- The step `dip & (dip - 1)` clears the lowest set bit of `dip` and no other. -/
theorem clear_lowest_bit (w : Nat) :
    ∀ m, 0 < m → m < 2 ^ w →
      ∃ k, k < w ∧ DIP_GET m k = 1 ∧ (∀ j, j < k → DIP_GET m j = 0) ∧
        DIP_GET (m &&& (m - 1)) k = 0 ∧
        ∀ j, j ≠ k → DIP_GET (m &&& (m - 1)) j = DIP_GET m j := by
  induction w with
  | zero => intro m h0 h1; simp at h1; omega
  | succ w ih =>
    intro m h0 h1
    have e2 : (m &&& (m - 1)) % 2 = 0 := by
      have := @Nat.and_mod_two_eq_one m (m - 1)
      omega
    by_cases hodd : m % 2 = 1
    · have e1 : (m - 1) / 2 = m / 2 := by omega
      refine ⟨0, by omega, by rw [DIP_GET_zero]; exact hodd, ?_, by rw [DIP_GET_zero]; exact e2, ?_⟩
      · intro j hj; omega
      · intro j hj
        cases j with
        | zero => omega
        | succ j => rw [DIP_GET_succ, DIP_GET_succ, Nat.and_div_two, e1, Nat.and_self]
    · have hev : m % 2 = 0 := by omega
      have e1 : (m - 1) / 2 = m / 2 - 1 := by omega
      have hlt : m / 2 < 2 ^ w := by
        rw [two_pow_succ_eq] at h1
        omega
      obtain ⟨k, hk, hbit, hlow, hclr, hrest⟩ := ih (m / 2) (by omega) hlt
      refine ⟨k + 1, by omega, by rw [DIP_GET_succ]; exact hbit, ?_, ?_, ?_⟩
      · intro j hj
        cases j with
        | zero => rw [DIP_GET_zero]; exact hev
        | succ j => rw [DIP_GET_succ]; exact hlow j (by omega)
      · rw [DIP_GET_succ, Nat.and_div_two, e1]
        exact hclr
      · intro j hj
        cases j with
        | zero => rw [DIP_GET_zero, DIP_GET_zero, e2, hev]
        | succ j =>
          rw [DIP_GET_succ, DIP_GET_succ, Nat.and_div_two, e1]
          exact hrest j (by omega)

/-- All `w` positions are set exactly for the all-ones mask. -/
theorem setBits_length_eq_width_iff (w : Nat) :
    ∀ m, m < 2 ^ w → ((setBits w m).length = w ↔ m = 2 ^ w - 1) := by
  induction w with
  | zero =>
    intro m hm
    have h0 : m = 0 := by simp at hm; omega
    subst h0
    simp [setBits]
  | succ w ih =>
    intro m hm
    have hp : 0 < 2 ^ w := Nat.two_pow_pos w
    have hlt : m / 2 < 2 ^ w := by
      rw [two_pow_succ_eq] at hm
      omega
    have hle := setBits_length_le w (m / 2)
    have hih := ih (m / 2) hlt
    rw [setBits_length_succ, two_pow_succ_eq]
    constructor
    · intro h
      have h1 : (setBits w (m / 2)).length = w := by omega
      have h2 := hih.mp h1
      omega
    · intro h
      have h1 : m / 2 = 2 ^ w - 1 := by omega
      have h2 := hih.mpr h1
      omega

theorem popcount_eq_zero_iff (m : Nat) (hm : m < 2 ^ 64) : popcount m = 0 ↔ m = 0 := by
  constructor
  · intro h
    by_cases h0 : m = 0
    · exact h0
    · have := popcount_pos m h0 hm
      omega
  · intro h
    rw [h]
    exact popcount_zero

/-- With a budget of at most the number of set bits the loop of
`countDiplotypes` does not reach its exit. -/
theorem countDiplotypes_loop_none :
    ∀ (fuel dip c : Nat), dip < 2 ^ 64 → fuel ≤ popcount dip →
      countDiplotypes_loop fuel dip c = none := by
  intro fuel
  induction fuel with
  | zero => intro dip c _ _; rfl
  | succ fuel ih =>
    intro dip c hd hf
    have h0 : dip ≠ 0 := by
      intro h
      rw [h, popcount_zero] at hf
      omega
    have hle : dip &&& (dip - 1) ≤ dip - 1 := Nat.and_le_right
    have hlt : dip &&& (dip - 1) < 2 ^ 64 := by omega
    have hclr := popcount_clear dip (Nat.pos_of_ne_zero h0) hd
    unfold countDiplotypes_loop
    rw [if_pos h0, Nat.mod_eq_of_lt hlt]
    exact ih _ _ hlt (by omega)

/-- Behind the codes written by `makeDiplotypes` the array keeps its entries. -/
theorem getElem?_append_drop (l buf : List Nat) (j : Nat) (hj : l.length ≤ j) :
    (l ++ buf.drop l.length)[j]? = buf[j]? := by
  rw [List.getElem?_append_right hj, List.getElem?_drop]
  congr 1
  omega

/-! ## Claims -/

/-- C1: for every 64-bit mask `m`, `countDiplotypes(m)` returns the number of
indices `d` in `[0,64)` with `DIP_GET(m,d) = 1`. -/
theorem C1_countDiplotypes_popcount (m : Nat) (hm : m < 2 ^ 64) :
    countDiplotypes m
      = some ((List.range 64).filter (fun d => DIP_GET m d = 1)).length := by
  rw [countDiplotypes_eq m hm]
  rfl

theorem C1_countDiplotypes_popcount_witness :
    (0x8000000000000005 : Nat) < 2 ^ 64 ∧
    countDiplotypes 0x8000000000000005
      = some ((List.range 64).filter (fun d => DIP_GET 0x8000000000000005 d = 1)).length :=
  ⟨by decide, C1_countDiplotypes_popcount 0x8000000000000005 (by decide)⟩

/-- C2: the diplotype index coding is a bijection between `[0,64)` and
`[0,8) x [0,8)`: for `idx < 64`, `DIP_HAP0(idx) < 8`, `DIP_HAP1(idx) < 8` and
`DIP_HAP0(idx)*8 + DIP_HAP1(idx) = idx`; for `hap0, hap1 < 8`,
`DIP_HAP0(hap0*8+hap1) = hap0` and `DIP_HAP1(hap0*8+hap1) = hap1`. -/
theorem C2_diplotype_index_bijection (idx hap0 hap1 : Nat)
    (hidx : idx < 64) (h0 : hap0 < 8) (h1 : hap1 < 8) :
    (DIP_HAP0 idx < 8 ∧ DIP_HAP1 idx < 8 ∧ DIP_HAP0 idx * 8 + DIP_HAP1 idx = idx) ∧
    (DIP_HAP0 (hap0 * 8 + hap1) = hap0 ∧ DIP_HAP1 (hap0 * 8 + hap1) = hap1) := by
  have e0 : ∀ x : Nat, DIP_HAP0 x = x / 8 := by
    intro x
    simp [DIP_HAP0, Nat.shiftRight_eq_div_pow]
  have e1 : ∀ x : Nat, DIP_HAP1 x = x % 8 := by
    intro x
    exact Nat.and_pow_two_sub_one_eq_mod x 3
  have _ := h0
  rw [e0, e1, e0, e1]
  omega

theorem C2_diplotype_index_bijection_witness :
    (DIP_HAP0 45 < 8 ∧ DIP_HAP1 45 < 8 ∧ DIP_HAP0 45 * 8 + DIP_HAP1 45 = 45) ∧
    (DIP_HAP0 (5 * 8 + 7) = 5 ∧ DIP_HAP1 (5 * 8 + 7) = 7) :=
  C2_diplotype_index_bijection 45 5 7 (by decide) (by decide) (by decide)

/-- C3: for every 64-bit mask `m`, `makeDiplotypes(m)` ends, and afterwards the
first `countDiplotypes(m)` entries of `curr_dipcodes` are exactly the indices
`d` in `[0,64)` whose bit is set in `m`, each once, in strictly increasing
order. -/
theorem C3_makeDiplotypes_lists_set_bits (g : genotype) (m : Nat)
    (hm : m < 2 ^ 64) (hg : g.curr_dipcodes.length = 64) :
    ∃ (g' : genotype) (n : Nat),
      makeDiplotypes g m = some g' ∧ countDiplotypes m = some n ∧
      g'.curr_dipcodes.take n = (List.range 64).filter (fun d => DIP_GET m d = 1) ∧
      (g'.curr_dipcodes.take n).length = n ∧
      (g'.curr_dipcodes.take n).Pairwise (fun a b => a < b) ∧
      ∀ c, c ∈ g'.curr_dipcodes.take n ↔ (c < 64 ∧ DIP_GET m c = 1) := by
  have htake : (setBits 64 m ++ g.curr_dipcodes.drop (popcount m)).take (popcount m)
      = setBits 64 m := List.take_left' rfl
  refine ⟨{ g with curr_dipcodes := setBits 64 m ++ g.curr_dipcodes.drop (popcount m) },
    popcount m, ?_, countDiplotypes_eq m hm, ?_, ?_, ?_, ?_⟩
  · simp [makeDiplotypes, makeDiplotypes_run_eq m g.curr_dipcodes hg]
  · exact htake
  · rw [htake]; rfl
  · rw [htake]; exact setBits_pairwise 64 m
  · intro c
    rw [htake]
    exact mem_setBits 64 m c

theorem C3_makeDiplotypes_lists_set_bits_witness :
    ∃ (g' : genotype) (n : Nat),
      makeDiplotypes genotype.blank 0x8000000000000005 = some g' ∧
      countDiplotypes 0x8000000000000005 = some n ∧
      g'.curr_dipcodes.take n
        = (List.range 64).filter (fun d => DIP_GET 0x8000000000000005 d = 1) ∧
      (g'.curr_dipcodes.take n).length = n ∧
      (g'.curr_dipcodes.take n).Pairwise (fun a b => a < b) ∧
      ∀ c, c ∈ g'.curr_dipcodes.take n ↔ (c < 64 ∧ DIP_GET 0x8000000000000005 c = 1) :=
  C3_makeDiplotypes_lists_set_bits genotype.blank 0x8000000000000005 (by decide) (by decide)

/-- C4: `makeDiplotypes` never writes outside the 64-entry buffer
`curr_dipcodes`: for every 64-bit mask `m` the run ends without an
out-of-range store, and at every store the write index `i` satisfies
`i ≤ d < 64`, so `i` is inside the array and the stored value `d` fits an
`unsigned char` without truncation. -/
theorem C4_makeDiplotypes_in_bounds (g : genotype) (m : Nat)
    (hm : m < 2 ^ 64) (hg : g.curr_dipcodes.length = 64) :
    ∃ st : MakeState,
      makeDiplotypes_run m g.curr_dipcodes = some st ∧
      (makeDiplotypes g m).isSome = true ∧
      st.buf.length = 64 ∧
      ∀ i d, (i, d) ∈ st.stores →
        i ≤ d ∧ d < 64 ∧ i < g.curr_dipcodes.length ∧ d % 256 = d := by
  have _ := hm
  refine ⟨_, makeDiplotypes_run_eq m g.curr_dipcodes hg, ?_, ?_, ?_⟩
  · simp [makeDiplotypes, makeDiplotypes_run_eq m g.curr_dipcodes hg]
  · have h1 : (setBits 64 m).length = popcount m := rfl
    have h2 := popcount_le m
    simp only [List.length_append, List.length_drop, h1, hg]
    omega
  · intro i d hmem
    have := makeDiplotypes_stores_bound m i d hmem
    omega

theorem C4_makeDiplotypes_in_bounds_witness :
    ∃ st : MakeState,
      makeDiplotypes_run 0xFFFFFFFFFFFFFFFF genotype.blank.curr_dipcodes = some st ∧
      (makeDiplotypes genotype.blank 0xFFFFFFFFFFFFFFFF).isSome = true ∧
      st.buf.length = 64 ∧
      ∀ i d, (i, d) ∈ st.stores →
        i ≤ d ∧ d < 64 ∧ i < genotype.blank.curr_dipcodes.length ∧ d % 256 = d :=
  C4_makeDiplotypes_in_bounds genotype.blank 0xFFFFFFFFFFFFFFFF (by decide) (by decide)

theorem VAR_type_code_lt (e v : Nat) : (v >>> (e <<< 2)) &&& 3 < 4 := by
  have h : (v >>> (e <<< 2)) &&& 3 = (v >>> (e <<< 2)) % 4 :=
    Nat.and_pow_two_sub_one_eq_mod _ 2
  omega

/-- C5: each variant slot has exactly one of the four types: for every byte `v`
and slot `e` in `{0,1}`, exactly one of `VAR_GET_HOM(e,v)`, `VAR_GET_MIS(e,v)`,
`VAR_GET_HET(e,v)`, `VAR_GET_SCA(e,v)` is true. -/
theorem C5_variant_type_exactly_one (e v : Nat) (he : e < 2) (hv : v < 256) :
    (VAR_GET_HOM e v = true ∧ VAR_GET_MIS e v = false ∧
      VAR_GET_HET e v = false ∧ VAR_GET_SCA e v = false) ∨
    (VAR_GET_HOM e v = false ∧ VAR_GET_MIS e v = true ∧
      VAR_GET_HET e v = false ∧ VAR_GET_SCA e v = false) ∨
    (VAR_GET_HOM e v = false ∧ VAR_GET_MIS e v = false ∧
      VAR_GET_HET e v = true ∧ VAR_GET_SCA e v = false) ∨
    (VAR_GET_HOM e v = false ∧ VAR_GET_MIS e v = false ∧
      VAR_GET_HET e v = false ∧ VAR_GET_SCA e v = true) := by
  have _ := he
  have _ := hv
  have h := VAR_type_code_lt e v
  unfold VAR_GET_HOM VAR_GET_MIS VAR_GET_HET VAR_GET_SCA
  generalize (v >>> (e <<< 2)) &&& 3 = x at h
  interval_cases x <;> decide

theorem C5_variant_type_exactly_one_witness :
    (VAR_GET_HOM 1 0xB7 = true ∧ VAR_GET_MIS 1 0xB7 = false ∧
      VAR_GET_HET 1 0xB7 = false ∧ VAR_GET_SCA 1 0xB7 = false) ∨
    (VAR_GET_HOM 1 0xB7 = false ∧ VAR_GET_MIS 1 0xB7 = true ∧
      VAR_GET_HET 1 0xB7 = false ∧ VAR_GET_SCA 1 0xB7 = false) ∨
    (VAR_GET_HOM 1 0xB7 = false ∧ VAR_GET_MIS 1 0xB7 = false ∧
      VAR_GET_HET 1 0xB7 = true ∧ VAR_GET_SCA 1 0xB7 = false) ∨
    (VAR_GET_HOM 1 0xB7 = false ∧ VAR_GET_MIS 1 0xB7 = false ∧
      VAR_GET_HET 1 0xB7 = false ∧ VAR_GET_SCA 1 0xB7 = true) :=
  C5_variant_type_exactly_one 1 0xB7 (by decide) (by decide)

/-- C6: for every genotype with `n_segments ≤ Diplotypes.size()`,
`countTransitions` returns `0` when `n_segments = 0`, and otherwise
`popcount(Diplotypes[0]) + Σ_{s ∈ [1,n_segments)} popcount(Diplotypes[s-1]) * popcount(Diplotypes[s])`
reduced modulo `2^32`; the genotype after the call is the genotype before it,
and the result is the same for any genotype with the same `n_segments` and
the same first `n_segments` masks. -/
theorem C6_countTransitions_formula (g : genotype) (hg : g.WellTyped)
    (hn : g.n_segments ≤ g.Diplotypes.length) :
    (g.n_segments = 0 → countTransitions g = some (0, g)) ∧
    (g.n_segments ≠ 0 →
      countTransitions g
        = some ((popcount (g.Diplotypes.getD 0 0)
            + ∑ s in Finset.Ico 1 g.n_segments,
                popcount (g.Diplotypes.getD (s - 1) 0) * popcount (g.Diplotypes.getD s 0))
            % 2 ^ 32, g)) ∧
    (∀ g2 : genotype, g2.n_segments = g.n_segments →
      g2.Diplotypes.take g.n_segments = g.Diplotypes.take g.n_segments →
      (countTransitions g2).map Prod.fst = (countTransitions g).map Prod.fst) := by
  have h := countTransitions_eq g hg hn
  refine ⟨?_, ?_, ?_⟩
  · intro h0
    rw [h]
    simp [transitionSum, h0]
  · intro h0
    rw [h]
    simp [transitionSum, h0]
  · intro g2 hn2 htake
    unfold countTransitions
    rw [hn2, countTransitions_loop_congr g g2 hn2
      (getElem?_eq_of_take_eq g.Diplotypes g2.Diplotypes g.n_segments htake)]
    rw [Option.map_map, Option.map_map]
    rfl

theorem C6_countTransitions_formula_witness :
    (genotype.three.n_segments = 0 → countTransitions genotype.three = some (0, genotype.three)) ∧
    (genotype.three.n_segments ≠ 0 →
      countTransitions genotype.three
        = some ((popcount (genotype.three.Diplotypes.getD 0 0)
            + ∑ s in Finset.Ico 1 genotype.three.n_segments,
                popcount (genotype.three.Diplotypes.getD (s - 1) 0)
                  * popcount (genotype.three.Diplotypes.getD s 0))
            % 2 ^ 32, genotype.three)) ∧
    (∀ g2 : genotype, g2.n_segments = genotype.three.n_segments →
      g2.Diplotypes.take genotype.three.n_segments
        = genotype.three.Diplotypes.take genotype.three.n_segments →
      (countTransitions g2).map Prod.fst = (countTransitions genotype.three).map Prod.fst) :=
  C6_countTransitions_formula genotype.three ⟨by decide, by decide, by decide⟩ (by decide)

/-- C7: for every genotype with `1 ≤ n_segments ≤ 2^20` and
`n_segments ≤ Diplotypes.size()`, the 32-bit accumulator of `countTransitions`
never wraps: after every number `k ≤ n_segments` of iterations it holds the
exact sum, which is below `2^32`, and the result is the exact sum; the result
is at most `64 + 4096 * (n_segments - 1)`; and when each of the first
`n_segments` masks is non-empty the result is at least `n_segments`. -/
theorem C7_countTransitions_bounds (g : genotype) (hg : g.WellTyped)
    (hn : g.n_segments ≤ g.Diplotypes.length)
    (h1 : 1 ≤ g.n_segments) (h2 : g.n_segments ≤ 2 ^ 20) :
    countTransitions g = some (transitionSum g.Diplotypes g.n_segments, g) ∧
    (∀ k, k ≤ g.n_segments →
      (countTransitions { g with n_segments := k }).map Prod.fst
        = some (transitionSum g.Diplotypes k) ∧
      transitionSum g.Diplotypes k < 2 ^ 32) ∧
    transitionSum g.Diplotypes g.n_segments ≤ 64 + 4096 * (g.n_segments - 1) ∧
    ((∀ s, s < g.n_segments → g.Diplotypes.getD s 0 ≠ 0) →
      g.n_segments ≤ transitionSum g.Diplotypes g.n_segments) := by
  have hlt : ∀ k, k ≤ g.n_segments → transitionSum g.Diplotypes k < 2 ^ 32 := by
    intro k hk
    by_cases hk0 : k = 0
    · subst hk0
      simp [transitionSum]
    · have := transitionSum_le g.Diplotypes k (by omega)
      have e : (2 : Nat) ^ 20 = 1048576 := by norm_num
      have e2 : (2 : Nat) ^ 32 = 4294967296 := by norm_num
      omega
  have hpre : ∀ k, k ≤ g.n_segments →
      countTransitions { g with n_segments := k }
        = some (transitionSum g.Diplotypes k, { g with n_segments := k }) := by
    intro k hk
    have hw : genotype.WellTyped { g with n_segments := k } :=
      ⟨hg.1, Nat.lt_of_le_of_lt hk hg.2.1, hg.2.2⟩
    have := countTransitions_eq { g with n_segments := k } hw (Nat.le_trans hk hn)
    rw [this]
    simp only []
    rw [Nat.mod_eq_of_lt (hlt k hk)]
  refine ⟨?_, ?_, transitionSum_le g.Diplotypes g.n_segments h1, ?_⟩
  · rw [countTransitions_eq g hg hn, Nat.mod_eq_of_lt (hlt _ (Nat.le_refl _))]
  · intro k hk
    refine ⟨?_, hlt k hk⟩
    rw [hpre k hk]
    rfl
  · intro hne
    exact transitionSum_ge g.Diplotypes g.n_segments h1 hg.2.2 hn hne

theorem C7_countTransitions_bounds_witness :
    countTransitions genotype.three
      = some (transitionSum genotype.three.Diplotypes genotype.three.n_segments, genotype.three) ∧
    (∀ k, k ≤ genotype.three.n_segments →
      (countTransitions { genotype.three with n_segments := k }).map Prod.fst
        = some (transitionSum genotype.three.Diplotypes k) ∧
      transitionSum genotype.three.Diplotypes k < 2 ^ 32) ∧
    transitionSum genotype.three.Diplotypes genotype.three.n_segments
      ≤ 64 + 4096 * (genotype.three.n_segments - 1) ∧
    ((∀ s, s < genotype.three.n_segments → genotype.three.Diplotypes.getD s 0 ≠ 0) →
      genotype.three.n_segments
        ≤ transitionSum genotype.three.Diplotypes genotype.three.n_segments) :=
  C7_countTransitions_bounds genotype.three ⟨by decide, by decide, by decide⟩
    (by decide) (by decide) (by decide)

/-- C8 as stated fails: `pushPS(false, false, 2^30)` stores `ps = 0`, not
`2^30`, and so the entries pushed with the different ids `0` and `2^30` carry
the same `ps` field. -/
theorem C8_pushPS_ps_counterexample :
    (pushPS genotype.blank false false (2 ^ 30)).PhaseSets.elems.getLast?.map
        (fun r => (r.ps : Int)) = some 0 ∧
    (pushPS genotype.blank false false (2 ^ 30)).PhaseSets.elems.getLast?.map
        (fun r => (r.ps : Int)) ≠ some (2 ^ 30) ∧
    (0 : Int) ≠ 2 ^ 30 ∧
    (pushPS genotype.blank false false 0).PhaseSets.elems.getLast?.map phase_set.ps
      = (pushPS genotype.blank false false (2 ^ 30)).PhaseSets.elems.getLast?.map
          phase_set.ps := by
  decide

/-- C8 amended: after `pushPS(a0, a1, ps)` the `ps` field of the last element of
`PhaseSets` is `ps` reduced modulo `2^30` (the width of the bit-field), hence
`ps` itself when `0 ≤ ps < 2^30`; two pushed entries carry the same `ps` field
exactly when their ids are congruent modulo `2^30`, hence for ids in
`[0, 2^30)` exactly when the ids are equal. -/
theorem C8_pushPS_ps_mod (g g2 : genotype) (a0 a1 b0 b1 : Bool) (ps ps2 : Int) :
    ∃ r r2 : phase_set,
      (pushPS g a0 a1 ps).PhaseSets.elems.getLast? = some r ∧
      (pushPS g2 b0 b1 ps2).PhaseSets.elems.getLast? = some r2 ∧
      (r.ps : Int) = ps % 2 ^ 30 ∧
      (0 ≤ ps → ps < 2 ^ 30 → (r.ps : Int) = ps) ∧
      (r.ps = r2.ps ↔ ps % 2 ^ 30 = ps2 % 2 ^ 30) ∧
      (0 ≤ ps → ps < 2 ^ 30 → 0 ≤ ps2 → ps2 < 2 ^ 30 → (r.ps = r2.ps ↔ ps = ps2)) := by
  have hr : (phase_set.new (int_to_uint ps) a0.toNat a1.toNat).ps = int_to_uint ps % 2 ^ 30 := rfl
  have hr2 : (phase_set.new (int_to_uint ps2) b0.toNat b1.toNat).ps
      = int_to_uint ps2 % 2 ^ 30 := rfl
  have hm := int_to_uint_mod ps
  have hm2 := int_to_uint_mod ps2
  refine ⟨phase_set.new (int_to_uint ps) a0.toNat a1.toNat,
    phase_set.new (int_to_uint ps2) b0.toNat b1.toNat, ?_, ?_, ?_, ?_, ?_, ?_⟩
  · simp [pushPS, pushPS_chunk_elems]
  · simp [pushPS, pushPS_chunk_elems]
  · rw [hr]; exact hm
  · intro h0 h1
    rw [hr, hm]
    omega
  · rw [hr, hr2]
    omega
  · intro h0 h1 h3 h4
    rw [hr, hr2]
    omega

theorem C8_pushPS_ps_mod_witness :
    ∃ r r2 : phase_set,
      (pushPS genotype.blank true false 1234567).PhaseSets.elems.getLast? = some r ∧
      (pushPS genotype.three false true 89).PhaseSets.elems.getLast? = some r2 ∧
      (r.ps : Int) = 1234567 % 2 ^ 30 ∧
      ((0 : Int) ≤ 1234567 → (1234567 : Int) < 2 ^ 30 → (r.ps : Int) = 1234567) ∧
      (r.ps = r2.ps ↔ (1234567 : Int) % 2 ^ 30 = 89 % 2 ^ 30) ∧
      ((0 : Int) ≤ 1234567 → (1234567 : Int) < 2 ^ 30 → (0 : Int) ≤ 89 → (89 : Int) < 2 ^ 30 →
        (r.ps = r2.ps ↔ (1234567 : Int) = 89)) :=
  C8_pushPS_ps_mod genotype.blank genotype.three true false false true 1234567 89

/-- C9 as stated fails: `VAR_GET_HAP0` and `VAR_GET_HAP1` are single bits, so no
8 bytes give 8 distinct readings of either field, and no coding of the 8x8
(copy0, copy1) assignments into bytes is told apart by the two fields. -/
theorem C9_copy_fields_counterexample :
    (¬ ∃ (e : Nat) (enc : Fin 8 → Nat), Function.Injective (fun h => VAR_GET_HAP0 e (enc h))) ∧
    (¬ ∃ (e : Nat) (enc : Fin 8 → Nat), Function.Injective (fun h => VAR_GET_HAP1 e (enc h))) ∧
    (¬ ∃ (e : Nat) (enc : Fin 8 × Fin 8 → Nat),
      Function.Injective (fun p => (VAR_GET_HAP0 e (enc p), VAR_GET_HAP1 e (enc p)))) := by
  refine ⟨?_, ?_, ?_⟩
  · rintro ⟨e, enc, hinj⟩
    have := Fintype.card_le_of_injective _ hinj
    simp at this
  · rintro ⟨e, enc, hinj⟩
    have := Fintype.card_le_of_injective _ hinj
    simp at this
  · rintro ⟨e, enc, hinj⟩
    have := Fintype.card_le_of_injective _ hinj
    simp at this

/-- C9 amended: the 4-bit slot `e` of a `Variants` byte codes the variant's 2-bit
type and one bit per chromosome copy, read by `VAR_GET_HAP0` and
`VAR_GET_HAP1`; for a heterozygous or scaffold slot each of the two fields
takes both of its 2 values, every one of the 2x2 (copy0, copy1) assignments
occurs, and exactly these 4 are told apart by the slot's bits. -/
theorem C9_variant_slot_copy_bits (e v : Nat) (he : e < 2) (hv : v < 256) (b0 b1 : Bool) :
    (v >>> (e <<< 2)) &&& 15
      = ((v >>> (e <<< 2)) &&& 3) + 4 * (VAR_GET_HAP0 e v).toNat
        + 8 * (VAR_GET_HAP1 e v).toNat ∧
    (∃ w, w < 256 ∧ VAR_GET_HET e w = true ∧ VAR_GET_HAP0 e w = b0 ∧ VAR_GET_HAP1 e w = b1) ∧
    (∃ w, w < 256 ∧ VAR_GET_SCA e w = true ∧ VAR_GET_HAP0 e w = b0 ∧ VAR_GET_HAP1 e w = b1) ∧
    (((Finset.range 256).filter (fun w => VAR_GET_HET e w || VAR_GET_SCA e w)).image
      (fun w => (VAR_GET_HAP0 e w, VAR_GET_HAP1 e w))).card = 4 := by
  refine ⟨VAR_slot_decode e he v hv, ?_, ?_, VAR_copy_pairs_card e he⟩
  · refine ⟨(2 + 4 * b0.toNat + 8 * b1.toNat) <<< (e <<< 2), ?_⟩
    interval_cases e <;> cases b0 <;> cases b1 <;> decide
  · refine ⟨(3 + 4 * b0.toNat + 8 * b1.toNat) <<< (e <<< 2), ?_⟩
    interval_cases e <;> cases b0 <;> cases b1 <;> decide

theorem C9_variant_slot_copy_bits_witness :
    (0xB7 >>> (1 <<< 2)) &&& 15
      = ((0xB7 >>> (1 <<< 2)) &&& 3) + 4 * (VAR_GET_HAP0 1 0xB7).toNat
        + 8 * (VAR_GET_HAP1 1 0xB7).toNat ∧
    (∃ w, w < 256 ∧ VAR_GET_HET 1 w = true ∧ VAR_GET_HAP0 1 w = true ∧
      VAR_GET_HAP1 1 w = false) ∧
    (∃ w, w < 256 ∧ VAR_GET_SCA 1 w = true ∧ VAR_GET_HAP0 1 w = true ∧
      VAR_GET_HAP1 1 w = false) ∧
    (((Finset.range 256).filter (fun w => VAR_GET_HET 1 w || VAR_GET_SCA 1 w)).image
      (fun w => (VAR_GET_HAP0 1 w, VAR_GET_HAP1 1 w))).card = 4 :=
  C9_variant_slot_copy_bits 1 0xB7 (by decide) (by decide) true false

/-- C10: `pushPS` is a pure append whose result does not depend on the capacity
or on `PS_ALLOC_CHUNK`: whatever the capacity of `PhaseSets` and the chunk
size, after `pushPS(a0, a1, ps)` the size of `PhaseSets` is the old size plus
one, the earlier entries are unchanged and in place, the new last entry has
`a0` and `a1` equal to the supplied booleans in that order, and every other
field of the genotype is unchanged. -/
theorem C10_pushPS_pure_append (chunk cap : Nat) (g : genotype) (a0 a1 : Bool) (ps : Int) :
    pushPS g a0 a1 ps = pushPS_chunk PS_ALLOC_CHUNK g a0 a1 ps ∧
    (pushPS_chunk chunk g a0 a1 ps).PhaseSets.size = g.PhaseSets.size + 1 ∧
    (pushPS_chunk chunk g a0 a1 ps).PhaseSets.elems.take g.PhaseSets.size
      = g.PhaseSets.elems ∧
    (∀ j, j < g.PhaseSets.size →
      (pushPS_chunk chunk g a0 a1 ps).PhaseSets.elems[j]? = g.PhaseSets.elems[j]?) ∧
    (∃ r : phase_set,
      (pushPS_chunk chunk g a0 a1 ps).PhaseSets.elems = g.PhaseSets.elems ++ [r] ∧
      (pushPS_chunk chunk g a0 a1 ps).PhaseSets.elems.getLast? = some r ∧
      r.a0 = a0.toNat ∧ r.a1 = a1.toNat) ∧
    (pushPS_chunk chunk { g with PhaseSets := { g.PhaseSets with cap := cap } }
        a0 a1 ps).PhaseSets.elems
      = (pushPS g a0 a1 ps).PhaseSets.elems ∧
    pushPS_chunk chunk g a0 a1 ps
      = { g with PhaseSets := (pushPS_chunk chunk g a0 a1 ps).PhaseSets } := by
  have he := pushPS_chunk_elems chunk g a0 a1 ps
  refine ⟨rfl, ?_, ?_, ?_, ?_, ?_, rfl⟩
  · simp [vector.size, he]
  · rw [he]
    exact List.take_left' rfl
  · intro j hj
    rw [he]
    exact List.getElem?_append_left hj
  · refine ⟨phase_set.new (int_to_uint ps) a0.toNat a1.toNat, he, ?_, ?_, ?_⟩
    · simp [he]
    · exact bool_toNat_mod_two a0
    · exact bool_toNat_mod_two a1
  · rw [pushPS, pushPS_chunk_elems, pushPS_chunk_elems]

/-- C11: two variants share one byte without interfering: for every byte `v`
and slot `e` in `{0,1}`, each of the eight mutators `VAR_SET_HOM`, `VAR_SET_MIS`,
`VAR_SET_HET`, `VAR_SET_SCA`, `VAR_SET_HAP0`, `VAR_CLR_HAP0`, `VAR_SET_HAP1`,
`VAR_CLR_HAP1` applied to slot `e` leaves the four bits of slot `1-e`
unchanged; the four type setters leave the HAP0 and HAP1 bits of slot `e`
unchanged; and the HAP0 (resp. HAP1) set/clear macros leave the type code and
the HAP1 (resp. HAP0) bit of slot `e` unchanged. -/
theorem C11_variant_mutators_frame (e v : Nat) (he : e < 2) (hv : v < 256) :
    ((VAR_SET_HOM e v >>> ((1 - e) <<< 2)) &&& 15 = (v >>> ((1 - e) <<< 2)) &&& 15 ∧
      (VAR_SET_MIS e v >>> ((1 - e) <<< 2)) &&& 15 = (v >>> ((1 - e) <<< 2)) &&& 15 ∧
      (VAR_SET_HET e v >>> ((1 - e) <<< 2)) &&& 15 = (v >>> ((1 - e) <<< 2)) &&& 15 ∧
      (VAR_SET_SCA e v >>> ((1 - e) <<< 2)) &&& 15 = (v >>> ((1 - e) <<< 2)) &&& 15 ∧
      (VAR_SET_HAP0 e v >>> ((1 - e) <<< 2)) &&& 15 = (v >>> ((1 - e) <<< 2)) &&& 15 ∧
      (VAR_CLR_HAP0 e v >>> ((1 - e) <<< 2)) &&& 15 = (v >>> ((1 - e) <<< 2)) &&& 15 ∧
      (VAR_SET_HAP1 e v >>> ((1 - e) <<< 2)) &&& 15 = (v >>> ((1 - e) <<< 2)) &&& 15 ∧
      (VAR_CLR_HAP1 e v >>> ((1 - e) <<< 2)) &&& 15 = (v >>> ((1 - e) <<< 2)) &&& 15) ∧
    ((VAR_GET_HAP0 e (VAR_SET_HOM e v) = VAR_GET_HAP0 e v ∧
        VAR_GET_HAP1 e (VAR_SET_HOM e v) = VAR_GET_HAP1 e v) ∧
      (VAR_GET_HAP0 e (VAR_SET_MIS e v) = VAR_GET_HAP0 e v ∧
        VAR_GET_HAP1 e (VAR_SET_MIS e v) = VAR_GET_HAP1 e v) ∧
      (VAR_GET_HAP0 e (VAR_SET_HET e v) = VAR_GET_HAP0 e v ∧
        VAR_GET_HAP1 e (VAR_SET_HET e v) = VAR_GET_HAP1 e v) ∧
      (VAR_GET_HAP0 e (VAR_SET_SCA e v) = VAR_GET_HAP0 e v ∧
        VAR_GET_HAP1 e (VAR_SET_SCA e v) = VAR_GET_HAP1 e v)) ∧
    (((VAR_SET_HAP0 e v >>> (e <<< 2)) &&& 3 = (v >>> (e <<< 2)) &&& 3 ∧
        VAR_GET_HAP1 e (VAR_SET_HAP0 e v) = VAR_GET_HAP1 e v) ∧
      ((VAR_CLR_HAP0 e v >>> (e <<< 2)) &&& 3 = (v >>> (e <<< 2)) &&& 3 ∧
        VAR_GET_HAP1 e (VAR_CLR_HAP0 e v) = VAR_GET_HAP1 e v) ∧
      ((VAR_SET_HAP1 e v >>> (e <<< 2)) &&& 3 = (v >>> (e <<< 2)) &&& 3 ∧
        VAR_GET_HAP0 e (VAR_SET_HAP1 e v) = VAR_GET_HAP0 e v) ∧
      ((VAR_CLR_HAP1 e v >>> (e <<< 2)) &&& 3 = (v >>> (e <<< 2)) &&& 3 ∧
        VAR_GET_HAP0 e (VAR_CLR_HAP1 e v) = VAR_GET_HAP0 e v)) := by
  exact ⟨VAR_setters_other_slot e he v hv, VAR_type_setters_keep_hap e he v hv,
    VAR_hap_setters_keep_rest e he v hv⟩

theorem C11_variant_mutators_frame_witness :
    ((VAR_SET_HOM 1 0xB7 >>> ((1 - 1) <<< 2)) &&& 15 = (0xB7 >>> ((1 - 1) <<< 2)) &&& 15 ∧
      (VAR_SET_MIS 1 0xB7 >>> ((1 - 1) <<< 2)) &&& 15 = (0xB7 >>> ((1 - 1) <<< 2)) &&& 15 ∧
      (VAR_SET_HET 1 0xB7 >>> ((1 - 1) <<< 2)) &&& 15 = (0xB7 >>> ((1 - 1) <<< 2)) &&& 15 ∧
      (VAR_SET_SCA 1 0xB7 >>> ((1 - 1) <<< 2)) &&& 15 = (0xB7 >>> ((1 - 1) <<< 2)) &&& 15 ∧
      (VAR_SET_HAP0 1 0xB7 >>> ((1 - 1) <<< 2)) &&& 15 = (0xB7 >>> ((1 - 1) <<< 2)) &&& 15 ∧
      (VAR_CLR_HAP0 1 0xB7 >>> ((1 - 1) <<< 2)) &&& 15 = (0xB7 >>> ((1 - 1) <<< 2)) &&& 15 ∧
      (VAR_SET_HAP1 1 0xB7 >>> ((1 - 1) <<< 2)) &&& 15 = (0xB7 >>> ((1 - 1) <<< 2)) &&& 15 ∧
      (VAR_CLR_HAP1 1 0xB7 >>> ((1 - 1) <<< 2)) &&& 15 = (0xB7 >>> ((1 - 1) <<< 2)) &&& 15) ∧
    ((VAR_GET_HAP0 1 (VAR_SET_HOM 1 0xB7) = VAR_GET_HAP0 1 0xB7 ∧
        VAR_GET_HAP1 1 (VAR_SET_HOM 1 0xB7) = VAR_GET_HAP1 1 0xB7) ∧
      (VAR_GET_HAP0 1 (VAR_SET_MIS 1 0xB7) = VAR_GET_HAP0 1 0xB7 ∧
        VAR_GET_HAP1 1 (VAR_SET_MIS 1 0xB7) = VAR_GET_HAP1 1 0xB7) ∧
      (VAR_GET_HAP0 1 (VAR_SET_HET 1 0xB7) = VAR_GET_HAP0 1 0xB7 ∧
        VAR_GET_HAP1 1 (VAR_SET_HET 1 0xB7) = VAR_GET_HAP1 1 0xB7) ∧
      (VAR_GET_HAP0 1 (VAR_SET_SCA 1 0xB7) = VAR_GET_HAP0 1 0xB7 ∧
        VAR_GET_HAP1 1 (VAR_SET_SCA 1 0xB7) = VAR_GET_HAP1 1 0xB7)) ∧
    (((VAR_SET_HAP0 1 0xB7 >>> (1 <<< 2)) &&& 3 = (0xB7 >>> (1 <<< 2)) &&& 3 ∧
        VAR_GET_HAP1 1 (VAR_SET_HAP0 1 0xB7) = VAR_GET_HAP1 1 0xB7) ∧
      ((VAR_CLR_HAP0 1 0xB7 >>> (1 <<< 2)) &&& 3 = (0xB7 >>> (1 <<< 2)) &&& 3 ∧
        VAR_GET_HAP1 1 (VAR_CLR_HAP0 1 0xB7) = VAR_GET_HAP1 1 0xB7) ∧
      ((VAR_SET_HAP1 1 0xB7 >>> (1 <<< 2)) &&& 3 = (0xB7 >>> (1 <<< 2)) &&& 3 ∧
        VAR_GET_HAP0 1 (VAR_SET_HAP1 1 0xB7) = VAR_GET_HAP0 1 0xB7) ∧
      ((VAR_CLR_HAP1 1 0xB7 >>> (1 <<< 2)) &&& 3 = (0xB7 >>> (1 <<< 2)) &&& 3 ∧
        VAR_GET_HAP0 1 (VAR_CLR_HAP1 1 0xB7) = VAR_GET_HAP0 1 0xB7)) :=
  C11_variant_mutators_frame 1 0xB7 (by decide) (by decide)

/-- C12: packing then unpacking a variant type round-trips after a reset: for
every byte `v` and slot `e` in `{0,1}`, after `VAR_SET_HOM(e,v)` the slot reads
homozygous and no other type, whatever it held before, and `VAR_SET_HOM` is
idempotent; and for each `X` in `{MIS, HET, SCA}`, after `VAR_SET_HOM(e,v)`
followed by `VAR_SET_X(e,v)`, `VAR_GET_X(e,v)` is true and the other three type
getters are false. -/
theorem C12_variant_type_roundtrip (e v : Nat) (he : e < 2) (hv : v < 256) :
    ((VAR_GET_HOM e (VAR_SET_HOM e v) = true ∧ VAR_GET_MIS e (VAR_SET_HOM e v) = false ∧
        VAR_GET_HET e (VAR_SET_HOM e v) = false ∧ VAR_GET_SCA e (VAR_SET_HOM e v) = false) ∧
      VAR_SET_HOM e (VAR_SET_HOM e v) = VAR_SET_HOM e v) ∧
    (VAR_GET_MIS e (VAR_SET_MIS e (VAR_SET_HOM e v)) = true ∧
      VAR_GET_HOM e (VAR_SET_MIS e (VAR_SET_HOM e v)) = false ∧
      VAR_GET_HET e (VAR_SET_MIS e (VAR_SET_HOM e v)) = false ∧
      VAR_GET_SCA e (VAR_SET_MIS e (VAR_SET_HOM e v)) = false) ∧
    (VAR_GET_HET e (VAR_SET_HET e (VAR_SET_HOM e v)) = true ∧
      VAR_GET_HOM e (VAR_SET_HET e (VAR_SET_HOM e v)) = false ∧
      VAR_GET_MIS e (VAR_SET_HET e (VAR_SET_HOM e v)) = false ∧
      VAR_GET_SCA e (VAR_SET_HET e (VAR_SET_HOM e v)) = false) ∧
    (VAR_GET_SCA e (VAR_SET_SCA e (VAR_SET_HOM e v)) = true ∧
      VAR_GET_HOM e (VAR_SET_SCA e (VAR_SET_HOM e v)) = false ∧
      VAR_GET_MIS e (VAR_SET_SCA e (VAR_SET_HOM e v)) = false ∧
      VAR_GET_HET e (VAR_SET_SCA e (VAR_SET_HOM e v)) = false) := by
  exact ⟨VAR_SET_HOM_reads_hom e he v hv, VAR_reset_then_set e he v hv⟩

theorem C12_variant_type_roundtrip_witness :
    ((VAR_GET_HOM 1 (VAR_SET_HOM 1 0xB7) = true ∧ VAR_GET_MIS 1 (VAR_SET_HOM 1 0xB7) = false ∧
        VAR_GET_HET 1 (VAR_SET_HOM 1 0xB7) = false ∧ VAR_GET_SCA 1 (VAR_SET_HOM 1 0xB7) = false) ∧
      VAR_SET_HOM 1 (VAR_SET_HOM 1 0xB7) = VAR_SET_HOM 1 0xB7) ∧
    (VAR_GET_MIS 1 (VAR_SET_MIS 1 (VAR_SET_HOM 1 0xB7)) = true ∧
      VAR_GET_HOM 1 (VAR_SET_MIS 1 (VAR_SET_HOM 1 0xB7)) = false ∧
      VAR_GET_HET 1 (VAR_SET_MIS 1 (VAR_SET_HOM 1 0xB7)) = false ∧
      VAR_GET_SCA 1 (VAR_SET_MIS 1 (VAR_SET_HOM 1 0xB7)) = false) ∧
    (VAR_GET_HET 1 (VAR_SET_HET 1 (VAR_SET_HOM 1 0xB7)) = true ∧
      VAR_GET_HOM 1 (VAR_SET_HET 1 (VAR_SET_HOM 1 0xB7)) = false ∧
      VAR_GET_MIS 1 (VAR_SET_HET 1 (VAR_SET_HOM 1 0xB7)) = false ∧
      VAR_GET_SCA 1 (VAR_SET_HET 1 (VAR_SET_HOM 1 0xB7)) = false) ∧
    (VAR_GET_SCA 1 (VAR_SET_SCA 1 (VAR_SET_HOM 1 0xB7)) = true ∧
      VAR_GET_HOM 1 (VAR_SET_SCA 1 (VAR_SET_HOM 1 0xB7)) = false ∧
      VAR_GET_MIS 1 (VAR_SET_SCA 1 (VAR_SET_HOM 1 0xB7)) = false ∧
      VAR_GET_HET 1 (VAR_SET_SCA 1 (VAR_SET_HOM 1 0xB7)) = false) :=
  C12_variant_type_roundtrip 1 0xB7 (by decide) (by decide)

/-- C13: packing then unpacking an allele bit round-trips: for every byte `v`,
slot `e` in `{0,1}` and `k` in `{0,1}`, after `VAR_SET_HAPk(e,v)`
`VAR_GET_HAPk(e,v)` is true, after `VAR_CLR_HAPk(e,v)` it is false, both
operations are idempotent, set-then-clear gives the byte of clear alone and
clear-then-set the byte of set alone. -/
theorem C13_allele_bit_roundtrip (e v : Nat) (he : e < 2) (hv : v < 256) :
    (VAR_GET_HAP0 e (VAR_SET_HAP0 e v) = true ∧ VAR_GET_HAP0 e (VAR_CLR_HAP0 e v) = false ∧
      VAR_SET_HAP0 e (VAR_SET_HAP0 e v) = VAR_SET_HAP0 e v ∧
      VAR_CLR_HAP0 e (VAR_CLR_HAP0 e v) = VAR_CLR_HAP0 e v ∧
      VAR_CLR_HAP0 e (VAR_SET_HAP0 e v) = VAR_CLR_HAP0 e v ∧
      VAR_SET_HAP0 e (VAR_CLR_HAP0 e v) = VAR_SET_HAP0 e v) ∧
    (VAR_GET_HAP1 e (VAR_SET_HAP1 e v) = true ∧ VAR_GET_HAP1 e (VAR_CLR_HAP1 e v) = false ∧
      VAR_SET_HAP1 e (VAR_SET_HAP1 e v) = VAR_SET_HAP1 e v ∧
      VAR_CLR_HAP1 e (VAR_CLR_HAP1 e v) = VAR_CLR_HAP1 e v ∧
      VAR_CLR_HAP1 e (VAR_SET_HAP1 e v) = VAR_CLR_HAP1 e v ∧
      VAR_SET_HAP1 e (VAR_CLR_HAP1 e v) = VAR_SET_HAP1 e v) := by
  exact VAR_hap_roundtrip e he v hv

theorem C13_allele_bit_roundtrip_witness :
    (VAR_GET_HAP0 1 (VAR_SET_HAP0 1 0xB7) = true ∧ VAR_GET_HAP0 1 (VAR_CLR_HAP0 1 0xB7) = false ∧
      VAR_SET_HAP0 1 (VAR_SET_HAP0 1 0xB7) = VAR_SET_HAP0 1 0xB7 ∧
      VAR_CLR_HAP0 1 (VAR_CLR_HAP0 1 0xB7) = VAR_CLR_HAP0 1 0xB7 ∧
      VAR_CLR_HAP0 1 (VAR_SET_HAP0 1 0xB7) = VAR_CLR_HAP0 1 0xB7 ∧
      VAR_SET_HAP0 1 (VAR_CLR_HAP0 1 0xB7) = VAR_SET_HAP0 1 0xB7) ∧
    (VAR_GET_HAP1 1 (VAR_SET_HAP1 1 0xB7) = true ∧ VAR_GET_HAP1 1 (VAR_CLR_HAP1 1 0xB7) = false ∧
      VAR_SET_HAP1 1 (VAR_SET_HAP1 1 0xB7) = VAR_SET_HAP1 1 0xB7 ∧
      VAR_CLR_HAP1 1 (VAR_CLR_HAP1 1 0xB7) = VAR_CLR_HAP1 1 0xB7 ∧
      VAR_CLR_HAP1 1 (VAR_SET_HAP1 1 0xB7) = VAR_CLR_HAP1 1 0xB7 ∧
      VAR_SET_HAP1 1 (VAR_CLR_HAP1 1 0xB7) = VAR_SET_HAP1 1 0xB7) :=
  C13_allele_bit_roundtrip 1 0xB7 (by decide) (by decide)

/-- C14: setting then reading a diplotype bit round-trips and is reflected by the
state count: for every 64-bit mask `d` and `idx` in `[0,64)`, after
`DIP_SET(d,idx)` `DIP_GET(d,idx) = 1` and `DIP_GET(d,j)` is unchanged for every
`j` in `[0,64)` with `j ≠ idx`; `countDiplotypes` of the new mask is the old
count plus one if bit `idx` was clear and the old count if it was set, in
which case the mask is unchanged; `DIP_SET` is idempotent. -/
theorem C14_DIP_SET_roundtrip (d idx : Nat) (hd : d < 2 ^ 64) (hidx : idx < 64) :
    DIP_GET (DIP_SET d idx) idx = 1 ∧
    (∀ j, j < 64 → j ≠ idx → DIP_GET (DIP_SET d idx) j = DIP_GET d j) ∧
    (∃ n, countDiplotypes d = some n ∧
      (DIP_GET d idx = 0 → countDiplotypes (DIP_SET d idx) = some (n + 1)) ∧
      (DIP_GET d idx = 1 → countDiplotypes (DIP_SET d idx) = some n)) ∧
    (DIP_GET d idx = 1 → DIP_SET d idx = d) ∧
    DIP_SET (DIP_SET d idx) idx = DIP_SET d idx := by
  have hset := DIP_SET_eq d idx hd hidx
  have h1 : (2 : Nat) ^ idx < 2 ^ 64 := Nat.pow_lt_pow_right (by decide) hidx
  have hlt : d ||| 2 ^ idx < 2 ^ 64 := Nat.or_lt_two_pow hd h1
  have hget : DIP_GET (d ||| 2 ^ idx) idx = 1 := by
    rw [DIP_GET_or_two_pow, if_pos rfl]
  have hpc := popcount_or_two_pow d idx hidx
  refine ⟨by rw [hset]; exact hget, ?_, ⟨popcount d, countDiplotypes_eq d hd, ?_, ?_⟩, ?_, ?_⟩
  · intro j _ hj
    rw [hset, DIP_GET_or_two_pow, if_neg hj]
  · intro h0
    rw [hset, countDiplotypes_eq _ hlt, hpc, h0]
  · intro hone
    rw [hset, countDiplotypes_eq _ hlt, hpc, hone]
    rfl
  · intro hone
    rw [hset]
    exact or_two_pow_eq_self d idx hone
  · rw [hset, DIP_SET_eq _ idx hlt hidx]
    exact or_two_pow_eq_self _ idx hget

theorem C14_DIP_SET_roundtrip_witness :
    DIP_GET (DIP_SET 0x8000000000000005 1) 1 = 1 ∧
    (∀ j, j < 64 → j ≠ 1 →
      DIP_GET (DIP_SET 0x8000000000000005 1) j = DIP_GET 0x8000000000000005 j) ∧
    (∃ n, countDiplotypes 0x8000000000000005 = some n ∧
      (DIP_GET 0x8000000000000005 1 = 0 →
        countDiplotypes (DIP_SET 0x8000000000000005 1) = some (n + 1)) ∧
      (DIP_GET 0x8000000000000005 1 = 1 →
        countDiplotypes (DIP_SET 0x8000000000000005 1) = some n)) ∧
    (DIP_GET 0x8000000000000005 1 = 1 → DIP_SET 0x8000000000000005 1 = 0x8000000000000005) ∧
    DIP_SET (DIP_SET 0x8000000000000005 1) 1 = DIP_SET 0x8000000000000005 1 :=
  C14_DIP_SET_roundtrip 0x8000000000000005 1 (by decide) (by decide)

/-- C15: intersecting a state mask never increases its state count: for all
64-bit masks `a` and `b`, `countDiplotypes(a & b) ≤ countDiplotypes(a)` and
`countDiplotypes(a & b) ≤ countDiplotypes(b)`, with
`countDiplotypes(a & b) = countDiplotypes(a)` exactly when `a & b = a`. -/
theorem C15_intersection_count (a b : Nat) (ha : a < 2 ^ 64) (hb : b < 2 ^ 64) :
    ∃ na nb nab,
      countDiplotypes a = some na ∧ countDiplotypes b = some nb ∧
      countDiplotypes (a &&& b) = some nab ∧
      nab ≤ na ∧ nab ≤ nb ∧ (nab = na ↔ a &&& b = a) :=
  ⟨popcount a, popcount b, popcount (a &&& b),
    countDiplotypes_eq a ha, countDiplotypes_eq b hb,
    countDiplotypes_eq _ (and_lt_two_pow_64 a b ha),
    popcount_and_le_left a b, popcount_and_le_right a b,
    setBits_length_and_eq_iff 64 a b ha⟩

theorem C15_intersection_count_witness :
    ∃ na nb nab,
      countDiplotypes 0xF0F0 = some na ∧ countDiplotypes 0x8000000000000FF0 = some nb ∧
      countDiplotypes (0xF0F0 &&& 0x8000000000000FF0) = some nab ∧
      nab ≤ na ∧ nab ≤ nb ∧ (nab = na ↔ 0xF0F0 &&& 0x8000000000000FF0 = 0xF0F0) :=
  C15_intersection_count 0xF0F0 0x8000000000000FF0 (by decide) (by decide)

/-- C16: `VAR_GET_AMB` flags exactly the heterozygous and scaffold slots: for
every byte `v` and slot `e` in `{0,1}`, `VAR_GET_AMB(e,v)` is true if and only
if `VAR_GET_HET(e,v)` or `VAR_GET_SCA(e,v)` is true; it is false for every
homozygous slot and for every missing slot. -/
theorem C16_VAR_GET_AMB_het_or_sca (e v : Nat) (he : e < 2) (hv : v < 256) :
    (VAR_GET_AMB e v = true ↔ (VAR_GET_HET e v = true ∨ VAR_GET_SCA e v = true)) ∧
    (VAR_GET_HOM e v = true → VAR_GET_AMB e v = false) ∧
    (VAR_GET_MIS e v = true → VAR_GET_AMB e v = false) := by
  exact VAR_amb_iff e he v hv

theorem C16_VAR_GET_AMB_het_or_sca_witness :
    (VAR_GET_AMB 1 0xB7 = true ↔ (VAR_GET_HET 1 0xB7 = true ∨ VAR_GET_SCA 1 0xB7 = true)) ∧
    (VAR_GET_HOM 1 0xB7 = true → VAR_GET_AMB 1 0xB7 = false) ∧
    (VAR_GET_MIS 1 0xB7 = true → VAR_GET_AMB 1 0xB7 = false) :=
  C16_VAR_GET_AMB_het_or_sca 1 0xB7 (by decide) (by decide)

/-- C17: the type setters `VAR_SET_MIS` and `VAR_SET_HET` OR their code into the
slot instead of overwriting it: for every byte `v` and slot `e` in `{0,1}`,
`VAR_SET_HET` on a slot that reads missing, or `VAR_SET_MIS` on a slot that
reads heterozygous, yields a slot that reads scaffold and neither heterozygous
nor missing; each of `VAR_SET_MIS`, `VAR_SET_HET`, `VAR_SET_SCA` on a scaffold
slot leaves it scaffold. `VAR_SET_X` followed by `VAR_GET_X` is true for every
prior content for `X = HOM` and `X = SCA`, and fails for some prior content
for `X = MIS` and for `X = HET`. -/
theorem C17_type_setters_or_into_slot (e v : Nat) (he : e < 2) (hv : v < 256) :
    (VAR_GET_MIS e v = true →
      VAR_GET_SCA e (VAR_SET_HET e v) = true ∧ VAR_GET_HET e (VAR_SET_HET e v) = false ∧
        VAR_GET_MIS e (VAR_SET_HET e v) = false) ∧
    (VAR_GET_HET e v = true →
      VAR_GET_SCA e (VAR_SET_MIS e v) = true ∧ VAR_GET_HET e (VAR_SET_MIS e v) = false ∧
        VAR_GET_MIS e (VAR_SET_MIS e v) = false) ∧
    (VAR_GET_SCA e v = true →
      VAR_GET_SCA e (VAR_SET_MIS e v) = true ∧ VAR_GET_SCA e (VAR_SET_HET e v) = true ∧
        VAR_GET_SCA e (VAR_SET_SCA e v) = true) ∧
    VAR_GET_HOM e (VAR_SET_HOM e v) = true ∧
    VAR_GET_SCA e (VAR_SET_SCA e v) = true ∧
    (∃ w, w < 256 ∧ VAR_GET_MIS e (VAR_SET_MIS e w) = false) ∧
    (∃ w, w < 256 ∧ VAR_GET_HET e (VAR_SET_HET e w) = false) := by
  have h1 := VAR_setters_or e he v hv
  have h2 := VAR_setters_on_scaffold e he v hv
  refine ⟨h1.1, h1.2, h2.1, h2.2.1, h2.2.2, ?_, ?_⟩
  · refine ⟨2 <<< (e <<< 2), ?_⟩
    interval_cases e <;> decide
  · refine ⟨1 <<< (e <<< 2), ?_⟩
    interval_cases e <;> decide

theorem C17_type_setters_or_into_slot_witness :
    (VAR_GET_MIS 1 0x97 = true →
      VAR_GET_SCA 1 (VAR_SET_HET 1 0x97) = true ∧ VAR_GET_HET 1 (VAR_SET_HET 1 0x97) = false ∧
        VAR_GET_MIS 1 (VAR_SET_HET 1 0x97) = false) ∧
    (VAR_GET_HET 1 0x97 = true →
      VAR_GET_SCA 1 (VAR_SET_MIS 1 0x97) = true ∧ VAR_GET_HET 1 (VAR_SET_MIS 1 0x97) = false ∧
        VAR_GET_MIS 1 (VAR_SET_MIS 1 0x97) = false) ∧
    (VAR_GET_SCA 1 0x97 = true →
      VAR_GET_SCA 1 (VAR_SET_MIS 1 0x97) = true ∧ VAR_GET_SCA 1 (VAR_SET_HET 1 0x97) = true ∧
        VAR_GET_SCA 1 (VAR_SET_SCA 1 0x97) = true) ∧
    VAR_GET_HOM 1 (VAR_SET_HOM 1 0x97) = true ∧
    VAR_GET_SCA 1 (VAR_SET_SCA 1 0x97) = true ∧
    (∃ w, w < 256 ∧ VAR_GET_MIS 1 (VAR_SET_MIS 1 w) = false) ∧
    (∃ w, w < 256 ∧ VAR_GET_HET 1 (VAR_SET_HET 1 w) = false) :=
  C17_type_setters_or_into_slot 1 0x97 (by decide) (by decide)

/-- C18: `makeDiplotypes(m)` changes only `curr_dipcodes[0 .. countDiplotypes(m)-1]`:
for every genotype and 64-bit mask `m` the call ends, the entries of
`curr_dipcodes` at positions `≥ countDiplotypes(m)` keep their previous values,
the array keeps its 64 entries, and every other field of the genotype is
unchanged; `makeDiplotypes(0)` changes nothing. -/
theorem C18_makeDiplotypes_frame (g : genotype) (m : Nat)
    (hm : m < 2 ^ 64) (hg : g.curr_dipcodes.length = 64) :
    (∃ (g' : genotype) (n : Nat),
      makeDiplotypes g m = some g' ∧ countDiplotypes m = some n ∧
      (∀ j, n ≤ j → g'.curr_dipcodes[j]? = g.curr_dipcodes[j]?) ∧
      g'.curr_dipcodes.length = 64 ∧
      g' = { g with curr_dipcodes := g'.curr_dipcodes }) ∧
    makeDiplotypes g 0 = some g := by
  have hrun := makeDiplotypes_run_eq m g.curr_dipcodes hg
  have hlen : (setBits 64 m).length = popcount m := rfl
  constructor
  · refine ⟨{ g with curr_dipcodes := setBits 64 m ++ g.curr_dipcodes.drop (popcount m) },
      popcount m, ?_, countDiplotypes_eq m hm, ?_, ?_, rfl⟩
    · simp [makeDiplotypes, hrun]
    · intro j hj
      exact getElem?_append_drop (setBits 64 m) g.curr_dipcodes j hj
    · have := popcount_le m
      simp only [List.length_append, List.length_drop, hlen, hg]
      omega
  · have h0 := makeDiplotypes_run_eq 0 g.curr_dipcodes hg
    have hs : setBits 64 0 = [] := by decide
    rw [popcount_zero, hs] at h0
    simp [makeDiplotypes, h0]

theorem C18_makeDiplotypes_frame_witness :
    (∃ (g' : genotype) (n : Nat),
      makeDiplotypes genotype.three 0x8000000000000005 = some g' ∧
      countDiplotypes 0x8000000000000005 = some n ∧
      (∀ j, n ≤ j → g'.curr_dipcodes[j]? = genotype.three.curr_dipcodes[j]?) ∧
      g'.curr_dipcodes.length = 64 ∧
      g' = { genotype.three with curr_dipcodes := g'.curr_dipcodes }) ∧
    makeDiplotypes genotype.three 0 = some genotype.three :=
  C18_makeDiplotypes_frame genotype.three 0x8000000000000005 (by decide) (by decide)

/-- C19: `countDiplotypes` ends on every 64-bit input: for non-zero `dip`,
`dip & (dip - 1)` is strictly smaller than `dip` and differs from it exactly in
the lowest set bit, which it clears; the loop body runs exactly `popcount(dip)`
times (a budget of `popcount + 1` loop tests is enough and no smaller one is);
the returned count is the number of set bits, lies in `[0,64]`, is `0` only
for the empty mask and `64` only for the all-ones mask, and stays below `2^32`,
so the counter does not wrap. -/
theorem C19_countDiplotypes_terminates (dip : Nat) (hd : dip < 2 ^ 64) :
    (dip ≠ 0 →
      dip &&& (dip - 1) < dip ∧
      ∃ k, k < 64 ∧ DIP_GET dip k = 1 ∧ (∀ j, j < k → DIP_GET dip j = 0) ∧
        DIP_GET (dip &&& (dip - 1)) k = 0 ∧
        ∀ j, j ≠ k → DIP_GET (dip &&& (dip - 1)) j = DIP_GET dip j) ∧
    (∀ fuel, (countDiplotypes_loop fuel dip 0).isSome = true ↔ popcount dip < fuel) ∧
    countDiplotypes_loop (popcount dip + 1) dip 0 = some (popcount dip) ∧
    (∃ n, countDiplotypes dip = some n ∧ n = popcount dip ∧ n ≤ 64 ∧ n < 2 ^ 32 ∧
      (n = 0 ↔ dip = 0) ∧ (n = 64 ↔ dip = 2 ^ 64 - 1)) := by
  have hp := popcount_le dip
  refine ⟨?_, ?_, ?_, ?_⟩
  · intro h0
    have hle : dip &&& (dip - 1) ≤ dip - 1 := Nat.and_le_right
    exact ⟨by omega, clear_lowest_bit 64 dip (Nat.pos_of_ne_zero h0) hd⟩
  · intro fuel
    by_cases hf : popcount dip < fuel
    · rw [countDiplotypes_loop_eq fuel dip 0 hd hf (by omega)]
      simp [hf]
    · rw [countDiplotypes_loop_none fuel dip 0 hd (by omega)]
      simp [hf]
  · have := countDiplotypes_loop_eq (popcount dip + 1) dip 0 hd (by omega) (by omega)
    simpa using this
  · exact ⟨popcount dip, countDiplotypes_eq dip hd, rfl, hp, by omega,
      popcount_eq_zero_iff dip hd, setBits_length_eq_width_iff 64 dip hd⟩

theorem C19_countDiplotypes_terminates_witness :
    ((0x8000000000000005 : Nat) ≠ 0 →
      0x8000000000000005 &&& (0x8000000000000005 - 1) < 0x8000000000000005 ∧
      ∃ k, k < 64 ∧ DIP_GET 0x8000000000000005 k = 1 ∧
        (∀ j, j < k → DIP_GET 0x8000000000000005 j = 0) ∧
        DIP_GET (0x8000000000000005 &&& (0x8000000000000005 - 1)) k = 0 ∧
        ∀ j, j ≠ k →
          DIP_GET (0x8000000000000005 &&& (0x8000000000000005 - 1)) j
            = DIP_GET 0x8000000000000005 j) ∧
    (∀ fuel, (countDiplotypes_loop fuel 0x8000000000000005 0).isSome = true
      ↔ popcount 0x8000000000000005 < fuel) ∧
    countDiplotypes_loop (popcount 0x8000000000000005 + 1) 0x8000000000000005 0
      = some (popcount 0x8000000000000005) ∧
    (∃ n, countDiplotypes 0x8000000000000005 = some n ∧ n = popcount 0x8000000000000005 ∧
      n ≤ 64 ∧ n < 2 ^ 32 ∧
      (n = 0 ↔ 0x8000000000000005 = 0) ∧ (n = 64 ↔ 0x8000000000000005 = 2 ^ 64 - 1)) :=
  C19_countDiplotypes_terminates 0x8000000000000005 (by decide)

end Shapeit4
